import Mathlib

/-!
# LiDAR plugin: `ALidarActor`

A shallow embedding of `LidarActor.cpp` / `LidarActor.h`.

Conventions of the embedding:
* A `float` or `double` value is the rational number it denotes.  Sums,
  products and quotients of floats are rounded as the machine rounds them: to
  the nearest binary32 (or binary64) value, ties to even, subnormal values
  included (`fl32`, `fl64`).  The exponent range is not bounded above: a result
  of magnitude `2^128` or more stands for an overflow.  Comparisons are exact.
  In `BeginPlay` the arguments of the setters are `double` expressions,
  `-1 * ScanAngleRad / 2.0` and `ScanAngleRad / 2.0`: negating a `float` and
  halving it in `double` are exact, so these are written without rounding.
* `uint16` / `uint32` fields are `Nat`; the increment of `TickCount` wraps
  modulo `2^32`.
* An operation returns `none` where the C++ leaves the model: a null handle is
  dereferenced, a float quotient has a zero divisor (the result is not a
  number of the model), or a float is converted to `uint16` although its
  truncation does not fit (undefined in C++).
* `PrintDebugLog` only writes to the on-screen overlay and is left out.
-/

namespace LiDAR

/-! ## Constants -/

/-- Constant `ALidarActor::ROSMsgType`. -/
def ROSMsgType : String := "sensor_msgs/LaserScan"

/-- Constant `ALidarActor::Degree2Radian = 0.01745329f`: the binary32 value
nearest to the decimal `0.01745329`, which is `2342541 / 2^27`. -/
def Degree2Radian : ℚ := 2342541 / 134217728

/-! ## Floating point -/

/-- Rounding of a rational to the nearest whole number, a tie going to the
even neighbour. -/
def roundEven (m : ℚ) : ℤ :=
  if m - ⌊m⌋ < 1 / 2 then ⌊m⌋
  else if 1 / 2 < m - ⌊m⌋ then ⌊m⌋ + 1
  else if ⌊m⌋ % 2 = 0 then ⌊m⌋ else ⌊m⌋ + 1

/-- Rounding to the nearest binary floating-point number with `prec`
significand bits and least normal exponent `emin`, ties to even: `x` is
rounded to a whole multiple of `2 ^ (e - (prec - 1))`, where `2 ^ e` is the
power of two at or below `|x|`, or `2 ^ emin` in the subnormal range. -/
def roundBinary (prec : ℕ) (emin : ℤ) (x : ℚ) : ℚ :=
  roundEven (x / 2 ^ (max (Int.log 2 |x|) emin - (prec - 1))) *
    2 ^ (max (Int.log 2 |x|) emin - (prec - 1))

/-- Rounding to `float` (binary32). -/
def fl32 (x : ℚ) : ℚ := roundBinary 24 (-126) x

/-- Rounding to `double` (binary64). -/
def fl64 (x : ℚ) : ℚ := roundBinary 53 (-1022) x

/-- The `float` quotient `x / y`; with a zero divisor the result is no number
of the model. -/
def fdiv32 (x y : ℚ) : Option ℚ :=
  if y = 0 then none else some (fl32 (x / y))

/-- The `double` quotient `x / y`; with a zero divisor the result is no number
of the model. -/
def fdiv64 (x y : ℚ) : Option ℚ :=
  if y = 0 then none else some (fl64 (x / y))

/-! ## Messages and the bridge handler (external classes, as far as the actor uses them) -/

/-- Message header `std_msgs::Header(seq, stamp, frame_id)`. -/
structure Header where
  seq : Nat
  stamp : ℚ
  frame_id : String
deriving DecidableEq, Repr

/-- Message `sensor_msgs::LaserScan`: the fields the actor writes. -/
structure LaserScan where
  header : Header
  angle_min : ℚ
  angle_max : ℚ
  angle_increment : ℚ
  range_min : ℚ
  range_max : ℚ
  ranges : List ℚ
deriving DecidableEq, Repr

/-- A default-constructed message, `new sensor_msgs::LaserScan()`. -/
def LaserScan.empty : LaserScan :=
  { header := { seq := 0, stamp := 0, frame_id := "" }
    angle_min := 0, angle_max := 0, angle_increment := 0
    range_min := 0, range_max := 0, ranges := [] }

/-- The calls the actor makes on its `FROSBridgeHandler`. -/
inductive HandlerCall where
  | AddPublisher (Topic : String) (MsgType : String)
  | Connect
  | PublishMsg (Topic : String) (Msg : LaserScan)
  | Process
  | Disconnect
deriving DecidableEq, Repr

/-- The handler object `FROSBridgeHandler(Host, Port)`: whether its connection is
up (the outcome of `Connect` is decided by the network, so it is an input) and
the calls it has received, oldest first. -/
structure FROSBridgeHandler where
  Host : String
  Port : Nat
  Connected : Bool
  Calls : List HandlerCall
deriving DecidableEq, Repr

/-- The messages handed to `PublishMsg`, oldest first. -/
def publishedOf : List HandlerCall → List LaserScan
  | [] => []
  | HandlerCall.PublishMsg _ Msg :: cs => Msg :: publishedOf cs
  | _ :: cs => publishedOf cs

/-! ## The actor -/

/-- The members of `ALidarActor` (`LidarActor.h`).  `FOVAngle` is
`DepthCapture->FOVAngle`; `ScanData` and `Handler` are null (`none`) until
`BeginPlay`. -/
structure ALidarActor where
  bShowDebugLog : Bool
  IPv4Address : String
  Port : Nat
  ROSTopic : String
  ScanAngleDeg : ℚ
  ScanAngleRad : ℚ
  AngularResInDeg : ℚ
  AngularResInRad : ℚ
  AngularResStepsInside : Nat
  AngularResStepsOf360 : Nat
  MinimumDistance : ℚ
  MaximumDistance : ℚ
  TimePerScan : ℚ
  Handler : Option FROSBridgeHandler
  ScanData : Option LaserScan
  TickCount : Nat
  TimePassed : ℚ
  FOVAngle : ℚ
  SCSResolution : Nat
deriving DecidableEq, Repr

/-- The scanning specs, which the constructor does not set: they come from the
property editor. -/
structure ScanSpecs where
  ScanAngleDeg : ℚ
  ScanAngleRad : ℚ
  AngularResInDeg : ℚ
  AngularResInRad : ℚ
  AngularResStepsInside : Nat
  AngularResStepsOf360 : Nat
  MinimumDistance : ℚ
  MaximumDistance : ℚ
  TimePerScan : ℚ
  FOVAngle : ℚ
deriving DecidableEq, Repr

/-- Constructor `ALidarActor::ALidarActor()`: the member initialiser list and
`SCSResolution = 1080`; the scanning specs are as given. -/
def ALidarActor.new (p : ScanSpecs) : ALidarActor :=
  { bShowDebugLog := false
    IPv4Address := "127.0.0.1"
    Port := 9090
    ROSTopic := "UE4LaserScan"
    ScanAngleDeg := p.ScanAngleDeg
    ScanAngleRad := p.ScanAngleRad
    AngularResInDeg := p.AngularResInDeg
    AngularResInRad := p.AngularResInRad
    AngularResStepsInside := p.AngularResStepsInside
    AngularResStepsOf360 := p.AngularResStepsOf360
    MinimumDistance := p.MinimumDistance
    MaximumDistance := p.MaximumDistance
    TimePerScan := p.TimePerScan
    Handler := none
    ScanData := none
    TickCount := 0
    TimePassed := 0
    FOVAngle := p.FOVAngle
    SCSResolution := 1080 }

/-- Method `ALidarActor::BeginPlay`: creates handler and publisher, connects
(`ConnectOk` is what the network made of it) and creates the message object
with its angle and range fields, which receive the exact values of the
`double` expressions `-1 * ScanAngleRad / 2.0` and `ScanAngleRad / 2.0`. -/
def ALidarActor.BeginPlay (a : ALidarActor) (ConnectOk : Bool) : ALidarActor :=
  { a with
    Handler := some
      { Host := a.IPv4Address
        Port := a.Port
        Connected := ConnectOk
        Calls := [HandlerCall.AddPublisher a.ROSTopic ROSMsgType, HandlerCall.Connect] }
    ScanData := some
      { LaserScan.empty with
        angle_min := -1 * a.ScanAngleRad / 2
        angle_max := a.ScanAngleRad / 2
        angle_increment := a.AngularResInRad
        range_min := a.MinimumDistance
        range_max := a.MaximumDistance } }

/-- Method `ALidarActor::EndPlay`: `Handler->Disconnect()`. -/
def ALidarActor.EndPlay (a : ALidarActor) : Option ALidarActor :=
  match a.Handler with
  | none => none
  | some h =>
    some { a with Handler := some { h with Connected := false, Calls := h.Calls ++ [HandlerCall.Disconnect] } }

/-- The body of the pixel loop of `Tick` for one pixel: `Encoded` is
`PixelPtr->R.Encoded`, a `uint16`, so `Encoded / 100` is the integer quotient;
the value is what `Add` appends. -/
def processPixel (MinimumDistance MaximumDistance : ℚ) (Encoded : Nat) : ℚ :=
  if ((Encoded / 100 : Nat) : ℚ) > MinimumDistance ∧ ((Encoded / 100 : Nat) : ℚ) < MaximumDistance then
    ((Encoded / 100 : Nat) : ℚ)
  else
    0

/-- The pixel loop of `Tick`: one `Add` onto `ProcessedDepthImage` per pixel of
`DepthImage`, in order. -/
def processLoop (MinimumDistance MaximumDistance : ℚ) :
    List ℚ → List Nat → List ℚ
  | ProcessedDepthImage, [] => ProcessedDepthImage
  | ProcessedDepthImage, Encoded :: rest =>
    processLoop MinimumDistance MaximumDistance
      (ProcessedDepthImage ++ [processPixel MinimumDistance MaximumDistance Encoded]) rest

/-- What the host supplies to one call of `Tick`: the frame time, the red
channel encodings of the pixels read back into `DepthImage`, the contents of
the slots that `AddUninitialized` creates (slot `i` holds `Uninitialized i`),
and the time `FROSTime()` returns. -/
structure TickInput where
  DeltaTime : ℚ
  DepthImage : List Nat
  Uninitialized : Nat → ℚ
  Now : ℚ

/-- The array `ProcessedDepthImage` that `Tick` builds:
`AddUninitialized(SCSResolution)`, then the pixel loop. -/
def ALidarActor.ProcessedDepthImage (a : ALidarActor) (i : TickInput) : List ℚ :=
  processLoop a.MinimumDistance a.MaximumDistance
    ((List.range a.SCSResolution).map i.Uninitialized) i.DepthImage

/-- The packing step of `Tick`: the message object gets a new header, with the
incremented `TickCount` (a `uint32`) as sequence number, and the ranges. -/
def ALidarActor.pack (a : ALidarActor) (ScanData : LaserScan) (i : TickInput) : LaserScan :=
  { ScanData with
    header := { seq := (a.TickCount + 1) % 2 ^ 32, stamp := i.Now, frame_id := "0" }
    ranges := a.ProcessedDepthImage i }

/-- Method `ALidarActor::Tick`.  `TimePassed += DeltaTime` is a `float`
addition; its rounded result is what is compared and kept. -/
def ALidarActor.Tick (a : ALidarActor) (i : TickInput) : Option ALidarActor :=
  let TimePassed := fl32 (a.TimePassed + i.DeltaTime)
  if TimePassed < a.TimePerScan then
    some { a with TimePassed := TimePassed }
  else
    match a.ScanData, a.Handler with
    | some ScanData, some Handler =>
      some { a with
        TimePassed := 0
        TickCount := (a.TickCount + 1) % 2 ^ 32
        ScanData := some (a.pack ScanData i)
        Handler := some
          { Handler with
            Calls := Handler.Calls ++
              [HandlerCall.PublishMsg a.ROSTopic (a.pack ScanData i), HandlerCall.Process] } }
    | _, _ => none

/-- Successive calls of `Tick`, one per input. -/
def ALidarActor.Ticks (a : ALidarActor) : List TickInput → Option ALidarActor
  | [] => some a
  | i :: rest =>
    match a.Tick i with
    | none => none
    | some b => b.Ticks rest

/-- The messages this actor has handed to `PublishMsg`, oldest first. -/
def ALidarActor.Published (a : ALidarActor) : List LaserScan :=
  match a.Handler with
  | none => []
  | some h => publishedOf h.Calls

/-! ## The property hook -/

/-- Conversion of a float to `uint16` on assignment: the fractional part is
discarded; undefined (`none`) when the result does not fit. -/
def toUInt16 (x : ℚ) : Option Nat :=
  if -1 < x ∧ x < 65536 then some ⌊x⌋₊ else none

/-- The property names `PostEditChangeProperty` compares against; `Other` is
`NAME_None` or any further property.  `MaximumDistance` is among the latter:
the source tests for `MinimumDistance` twice and never for `MaximumDistance`. -/
inductive PropertyName where
  | bShowDebugLog
  | ScanAngleDeg
  | ScanAngleRad
  | AngularResInDeg
  | AngularResInRad
  | AngularResStepsInside
  | AngularResStepsOf360
  | MinimumDistance
  | TimePerScan
  | Other
deriving DecidableEq, Repr

/-- Method `ALidarActor::PostEditChangeProperty`, called after the editor has
written the property of that name.  Products and quotients of `float`s are
`float` operations; a quotient with the `double` literal `360.0` is a `double`
operation, rounded once more when it is stored in a `float` field; a value
stored in a `uint16` field loses its fraction.  The branches for
`bShowDebugLog`, `MinimumDistance` and `TimePerScan` only log (the first
restores `bShowDebugLog`). -/
def ALidarActor.PostEditChangeProperty (a : ALidarActor) : PropertyName → Option ALidarActor
  | PropertyName.bShowDebugLog => some a
  | PropertyName.ScanAngleDeg =>
    some { a with
      ScanAngleRad := fl32 (a.ScanAngleDeg * Degree2Radian), FOVAngle := a.ScanAngleDeg }
  | PropertyName.ScanAngleRad => do
    let ScanAngleDeg ← fdiv32 a.ScanAngleRad Degree2Radian
    some { a with ScanAngleDeg := ScanAngleDeg, FOVAngle := ScanAngleDeg }
  | PropertyName.AngularResInDeg => do
    let AngularResInRad := fl32 (a.AngularResInDeg * Degree2Radian)
    let AngularResStepsInside ← (fdiv32 a.ScanAngleDeg a.AngularResInDeg).bind toUInt16
    let AngularResStepsOf360 ← (fdiv64 360 a.AngularResInDeg).bind toUInt16
    some { a with
      AngularResInRad := AngularResInRad
      AngularResStepsInside := AngularResStepsInside
      AngularResStepsOf360 := AngularResStepsOf360 }
  | PropertyName.AngularResInRad => do
    let AngularResInDeg ← fdiv32 a.AngularResInRad Degree2Radian
    let AngularResStepsInside ← (fdiv32 a.ScanAngleDeg AngularResInDeg).bind toUInt16
    let AngularResStepsOf360 ← (fdiv64 360 AngularResInDeg).bind toUInt16
    some { a with
      AngularResInDeg := AngularResInDeg
      AngularResStepsInside := AngularResStepsInside
      AngularResStepsOf360 := AngularResStepsOf360 }
  | PropertyName.AngularResStepsInside => do
    let AngularResInDeg ← fdiv32 a.ScanAngleDeg a.AngularResStepsInside
    let AngularResStepsOf360 ← (fdiv64 360 AngularResInDeg).bind toUInt16
    some { a with
      AngularResInDeg := AngularResInDeg
      AngularResStepsOf360 := AngularResStepsOf360 }
  | PropertyName.AngularResStepsOf360 => do
    let AngularResInDeg ← (fdiv64 360 a.AngularResStepsOf360).map fl32
    let AngularResStepsInside ← (fdiv32 a.ScanAngleDeg AngularResInDeg).bind toUInt16
    some { a with
      AngularResInDeg := AngularResInDeg
      AngularResStepsInside := AngularResStepsInside }
  | PropertyName.MinimumDistance => some a
  | PropertyName.TimePerScan => some a
  | PropertyName.Other => some a

/-- The editor (or any other code) writes the scanning specs of the actor. -/
def ALidarActor.write (a : ALidarActor) (p : ScanSpecs) : ALidarActor :=
  { a with
    ScanAngleDeg := p.ScanAngleDeg
    ScanAngleRad := p.ScanAngleRad
    AngularResInDeg := p.AngularResInDeg
    AngularResInRad := p.AngularResInRad
    AngularResStepsInside := p.AngularResStepsInside
    AngularResStepsOf360 := p.AngularResStepsOf360
    MinimumDistance := p.MinimumDistance
    MaximumDistance := p.MaximumDistance
    TimePerScan := p.TimePerScan
    FOVAngle := p.FOVAngle }

/-- What happens to an actor in play: a frame, or an edit of its scanning specs
followed by the property hook. -/
inductive Event where
  | Frame (i : TickInput)
  | Edit (p : ScanSpecs) (Name : PropertyName)

/-- One event. -/
def ALidarActor.step (a : ALidarActor) : Event → Option ALidarActor
  | Event.Frame i => a.Tick i
  | Event.Edit p Name => (a.write p).PostEditChangeProperty Name

/-- A sequence of events, in order. -/
def ALidarActor.run (a : ALidarActor) : List Event → Option ALidarActor
  | [] => some a
  | e :: rest =>
    match a.step e with
    | none => none
    | some b => b.run rest

/-- The exact quotient `x / y`, which a zero divisor does not have: what the
stored step counts are measured against. -/
def fdiv (x y : ℚ) : Option ℚ :=
  if y = 0 then none else some (x / y)

/-- The four forms of the angular resolution agree with each other and with the
scan angle, in exact arithmetic: radians are degrees times `Degree2Radian`,
and the two step counts are what the `uint16` fields keep of
`ScanAngleDeg / AngularResInDeg` and of `360 / AngularResInDeg`. -/
def ALidarActor.ResolutionConsistent (a : ALidarActor) : Prop :=
  a.AngularResInRad = a.AngularResInDeg * Degree2Radian ∧
  (fdiv a.ScanAngleDeg a.AngularResInDeg).bind toUInt16 = some a.AngularResStepsInside ∧
  (fdiv 360 a.AngularResInDeg).bind toUInt16 = some a.AngularResStepsOf360

instance (a : ALidarActor) : Decidable a.ResolutionConsistent := by
  unfold ALidarActor.ResolutionConsistent; infer_instance

/-! ## Sample data -/

/-- Scanning specs used in the examples: 180 degrees (in radians the `float`
product `180 * Degree2Radian`) at 1 degree per step, the resolution forms in
agreement, ranges from 1 m to 50 m, and `0.1f` seconds between scans. -/
def sampleSpecs : ScanSpecs :=
  { ScanAngleDeg := 180
    ScanAngleRad := fl32 (180 * Degree2Radian)
    AngularResInDeg := 1
    AngularResInRad := Degree2Radian
    AngularResStepsInside := 180
    AngularResStepsOf360 := 360
    MinimumDistance := 1
    MaximumDistance := 50
    TimePerScan := fl32 (1 / 10)
    FOVAngle := 180 }

/-- A frame with the given pixels whose `DeltaTime` is the `float` nearest to
the given number of seconds; the fresh slots hold `-1` and the clock reads
`0`. -/
def sampleFrame (DeltaTime : ℚ) (DepthImage : List Nat) : TickInput :=
  { DeltaTime := fl32 DeltaTime, DepthImage := DepthImage, Uninitialized := fun _ => -1, Now := 0 }

/-- An actor in play with the sample specs; `ConnectOk` tells whether the
connection came up. -/
def sampleActor (ConnectOk : Bool) : ALidarActor :=
  (ALidarActor.new sampleSpecs).BeginPlay ConnectOk

/-! ## Invariants -/

/-- What every playing actor that started with `TickCount = 0` and nothing
published satisfies: the handles are set, `TickCount` is the number of
published messages modulo `2^32`, and the `k`-th published message carries
`k` modulo `2^32`. -/
def ALidarActor.Counted (a : ALidarActor) : Prop :=
  (∃ m, a.ScanData = some m) ∧ (∃ h, a.Handler = some h) ∧
    a.TickCount = a.Published.length % 2 ^ 32 ∧
    a.Published.map (fun m => m.header.seq) =
      (List.range a.Published.length).map (fun k => (k + 1) % 2 ^ 32)

/-- The angle and range fields of a message are those `BeginPlay` derives from
the scanning specs `p`. -/
def LaserScan.FramedBy (m : LaserScan) (p : ScanSpecs) : Prop :=
  m.angle_min = -1 * p.ScanAngleRad / 2 ∧ m.angle_max = p.ScanAngleRad / 2 ∧
    m.angle_increment = p.AngularResInRad ∧
    m.range_min = p.MinimumDistance ∧ m.range_max = p.MaximumDistance

/-- What every actor satisfies that was put into play with the scanning specs
`p`: the handles are set, and the message object and all published messages
carry the angle and range fields derived from `p`. -/
def ALidarActor.Framed (a : ALidarActor) (p : ScanSpecs) : Prop :=
  (∃ m, a.ScanData = some m ∧ m.FramedBy p) ∧ (∃ h, a.Handler = some h) ∧
    ∀ m ∈ a.Published, m.FramedBy p

/-! ## Lemmas on rounding -/

theorem roundEven_sub_le (m : ℚ) : |(roundEven m : ℚ) - m| ≤ 1 / 2 := by
  have h1 : (⌊m⌋ : ℚ) ≤ m := Int.floor_le m
  have h2 : m < ⌊m⌋ + 1 := Int.lt_floor_add_one m
  unfold roundEven
  split_ifs with ha hb hc
  · rw [abs_le]; constructor <;> linarith
  · push_cast; rw [abs_le]; constructor <;> linarith
  · rw [abs_le]; constructor <;> linarith
  · push_cast; rw [abs_le]; constructor <;> linarith

theorem roundEven_nonneg (m : ℚ) (hm : 0 ≤ m) : 0 ≤ roundEven m := by
  have h0 : 0 ≤ ⌊m⌋ := Int.floor_nonneg.mpr hm
  unfold roundEven
  split_ifs <;> omega

theorem roundEven_eq (m : ℚ) (k : ℤ) (h : |m - k| < 1 / 2) : roundEven m = k := by
  have hb := roundEven_sub_le m
  rw [abs_lt] at h
  rw [abs_le] at hb
  have h1 : ((roundEven m : ℤ) : ℚ) - k < 1 := by linarith [h.1, h.2, hb.1, hb.2]
  have h2 : (-1 : ℚ) < ((roundEven m : ℤ) : ℚ) - k := by linarith [h.1, h.2, hb.1, hb.2]
  have h3 : roundEven m - k < 1 := by exact_mod_cast h1
  have h4 : -1 < roundEven m - k := by exact_mod_cast h2
  omega

theorem log_eq (x : ℚ) (e : ℤ) (hlo : (2 : ℚ) ^ e ≤ |x|) (hhi : |x| < (2 : ℚ) ^ (e + 1)) :
    Int.log 2 |x| = e := by
  have hpos : 0 < |x| := lt_of_lt_of_le (by positivity) hlo
  have h1 : e ≤ Int.log 2 |x| := by
    rw [← Int.zpow_le_iff_le_log (by norm_num) hpos]
    exact_mod_cast hlo
  have h2 : Int.log 2 |x| < e + 1 := by
    rw [← Int.lt_zpow_iff_log_lt (by norm_num) hpos]
    exact_mod_cast hhi
  omega

theorem roundBinary_eq (prec : ℕ) (emin e k : ℤ) (x : ℚ) (he : emin ≤ e)
    (hlo : (2 : ℚ) ^ e ≤ |x|) (hhi : |x| < (2 : ℚ) ^ (e + 1))
    (hk : |x / 2 ^ (e - (prec - 1)) - k| < 1 / 2) :
    roundBinary prec emin x = k * 2 ^ (e - (prec - 1)) := by
  unfold roundBinary
  rw [log_eq x e hlo hhi, max_eq_left he, roundEven_eq _ k hk]

theorem roundBinary_zero (prec : ℕ) (emin : ℤ) : roundBinary prec emin 0 = 0 := by
  simp [roundBinary, roundEven]

theorem roundBinary_nonneg (prec : ℕ) (emin : ℤ) (x : ℚ) (hx : 0 ≤ x) :
    0 ≤ roundBinary prec emin x := by
  unfold roundBinary
  have := roundEven_nonneg (x / 2 ^ (max (Int.log 2 |x|) emin - (prec - 1))) (by positivity)
  have h2 : (0 : ℚ) ≤ roundEven (x / 2 ^ (max (Int.log 2 |x|) emin - (prec - 1))) := by
    exact_mod_cast this
  positivity

theorem roundBinary_sub_le (prec : ℕ) (emin : ℤ) (x : ℚ) :
    |roundBinary prec emin x - x| ≤ |x| * 2 ^ (-(prec : ℤ)) + 2 ^ (emin - prec) := by
  by_cases hx0 : x = 0
  · subst hx0
    rw [roundBinary_zero]
    simp only [sub_zero, abs_zero, zero_mul, zero_add]
    positivity
  have hpos : 0 < |x| := abs_pos.mpr hx0
  unfold roundBinary
  set e := max (Int.log 2 |x|) emin with he
  have hu : (0 : ℚ) < 2 ^ (e - (prec - 1)) := by positivity
  have hr := roundEven_sub_le (x / 2 ^ (e - (prec - 1)))
  have hx : x = x / 2 ^ (e - (prec - 1)) * 2 ^ (e - (prec - 1)) := by field_simp
  have h1 : |(roundEven (x / 2 ^ (e - (prec - 1))) : ℚ) * 2 ^ (e - (prec - 1)) - x|
      ≤ 1 / 2 * 2 ^ (e - (prec - 1)) := by
    conv_lhs => rw [hx]
    rw [← sub_mul, abs_mul, abs_of_pos hu]
    have : x / 2 ^ (e - (↑prec - 1)) * 2 ^ (e - (↑prec - 1)) / 2 ^ (e - (↑prec - 1)) =
        x / 2 ^ (e - (↑prec - 1)) := by field_simp
    rw [this]
    exact mul_le_mul_of_nonneg_right hr hu.le
  have h2 : (1 / 2 : ℚ) * 2 ^ (e - (prec - 1)) = 2 ^ (e - prec) := by
    have : e - ((prec : ℤ) - 1) = (e - prec) + 1 := by ring
    rw [this, zpow_add₀ (by norm_num), zpow_one]; ring
  rw [h2] at h1
  refine h1.trans ?_
  have hp : (0 : ℚ) < 2 ^ (-(prec : ℤ)) := by positivity
  have hq : (0 : ℚ) < 2 ^ (emin - (prec : ℤ)) := by positivity
  rcases le_total emin (Int.log 2 |x|) with hc | hc
  · have hee : e = Int.log 2 |x| := by rw [he, max_eq_left hc]
    have hl : ((2 : ℕ) : ℚ) ^ Int.log 2 |x| ≤ |x| := Int.zpow_log_le_self (by norm_num) hpos
    have : (2 : ℚ) ^ (e - prec) = 2 ^ e * 2 ^ (-(prec : ℤ)) := by
      rw [← zpow_add₀ (by norm_num)]; ring_nf
    rw [this, hee]
    have hl2 : (2 : ℚ) ^ Int.log 2 |x| ≤ |x| := by exact_mod_cast hl
    nlinarith [mul_le_mul_of_nonneg_right hl2 hp.le]
  · have hee : e = emin := by rw [he, max_eq_right hc]
    rw [hee]
    have : (0 : ℚ) ≤ |x| * 2 ^ (-(prec : ℤ)) := by positivity
    linarith

theorem fl32_sub_le (x : ℚ) : |fl32 x - x| ≤ |x| / 2 ^ 24 + 1 / 2 ^ 150 := by
  have h := roundBinary_sub_le 24 (-126) x
  have e1 : (2 : ℚ) ^ (-((24 : ℕ) : ℤ)) = 1 / 2 ^ 24 := by norm_num [zpow_neg]
  have e2 : (2 : ℚ) ^ ((-126 : ℤ) - ((24 : ℕ) : ℤ)) = 1 / 2 ^ 150 := by
    have : ((-126 : ℤ) - ((24 : ℕ) : ℤ)) = -(150 : ℕ) := by norm_num
    rw [this, zpow_neg, zpow_natCast]; norm_num
  rw [e1, e2] at h
  unfold fl32
  linarith

theorem fl64_sub_le (x : ℚ) : |fl64 x - x| ≤ |x| / 2 ^ 53 + 1 / 2 ^ 1075 := by
  have h := roundBinary_sub_le 53 (-1022) x
  have e1 : (2 : ℚ) ^ (-((53 : ℕ) : ℤ)) = 1 / 2 ^ 53 := by norm_num [zpow_neg]
  have e2 : (2 : ℚ) ^ ((-1022 : ℤ) - ((53 : ℕ) : ℤ)) = 1 / 2 ^ 1075 := by
    have : ((-1022 : ℤ) - ((53 : ℕ) : ℤ)) = -(1075 : ℕ) := by norm_num
    rw [this, zpow_neg, zpow_natCast]; norm_num
  rw [e1, e2] at h
  unfold fl64
  linarith

theorem fl32_nonneg (x : ℚ) (hx : 0 ≤ x) : 0 ≤ fl32 x := roundBinary_nonneg 24 (-126) x hx

theorem fl32_eq (e k : ℤ) (x : ℚ) (he : -126 ≤ e)
    (hlo : (2 : ℚ) ^ e ≤ |x|) (hhi : |x| < (2 : ℚ) ^ (e + 1))
    (hk : |x / 2 ^ (e - 23) - k| < 1 / 2) : fl32 x = k * 2 ^ (e - 23) := by
  have := roundBinary_eq 24 (-126) e k x he hlo hhi (by norm_num; simpa using hk)
  simpa [fl32] using this

theorem fl32_eq_pos (e k : ℤ) (x : ℚ) (he : -126 ≤ e)
    (hlo : (2 : ℚ) ^ e ≤ x) (hhi : x < (2 : ℚ) ^ (e + 1))
    (hk1 : (k : ℚ) - 1 / 2 < x / 2 ^ (e - 23)) (hk2 : x / 2 ^ (e - 23) < k + 1 / 2) :
    fl32 x = k * 2 ^ (e - 23) := by
  have hx : 0 ≤ x := le_trans (by positivity) hlo
  apply fl32_eq e k x he
  · rwa [abs_of_nonneg hx]
  · rwa [abs_of_nonneg hx]
  · rw [abs_lt]; constructor <;> linarith

theorem fl64_eq_pos (e k : ℤ) (x : ℚ) (he : -1022 ≤ e)
    (hlo : (2 : ℚ) ^ e ≤ x) (hhi : x < (2 : ℚ) ^ (e + 1))
    (hk1 : (k : ℚ) - 1 / 2 < x / 2 ^ (e - 52)) (hk2 : x / 2 ^ (e - 52) < k + 1 / 2) :
    fl64 x = k * 2 ^ (e - 52) := by
  have hx : 0 ≤ x := le_trans (by positivity) hlo
  have := roundBinary_eq 53 (-1022) e k x he (by rwa [abs_of_nonneg hx]) (by rwa [abs_of_nonneg hx])
    (by rw [abs_lt]; norm_num; constructor <;> linarith)
  simpa [fl64] using this

theorem fl32_tenth : fl32 (1 / 10) = 13421773 / 134217728 := by
  rw [fl32_eq_pos (-4) 13421773] <;> norm_num

theorem fl32_twentieth : fl32 (1 / 20) = 13421773 / 268435456 := by
  rw [fl32_eq_pos (-5) 13421773] <;> norm_num

theorem fl32_fifth : fl32 (1 / 5) = 13421773 / 67108864 := by
  rw [fl32_eq_pos (-3) 13421773] <;> norm_num

theorem fl32_three_tenths : fl32 (3 / 10) = 5033165 / 16777216 := by
  rw [fl32_eq_pos (-2) 10066330] <;> norm_num

theorem fl32_one : fl32 1 = 1 := by
  rw [fl32_eq_pos 0 8388608] <;> norm_num

theorem fl32_tenth_f : fl32 (13421773 / 134217728) = 13421773 / 134217728 := by
  rw [fl32_eq_pos (-4) 13421773] <;> norm_num

theorem fl32_twentieth_f : fl32 (13421773 / 268435456) = 13421773 / 268435456 := by
  rw [fl32_eq_pos (-5) 13421773] <;> norm_num

theorem fl32_twentieth_twice :
    fl32 (13421773 / 268435456 + 13421773 / 268435456) = 13421773 / 134217728 := by
  rw [fl32_eq_pos (-4) 13421773] <;> norm_num

theorem fl32_tenth_plus_fifth :
    fl32 (13421773 / 134217728 + 13421773 / 67108864) = 5033165 / 16777216 := by
  rw [fl32_eq_pos (-2) 10066330] <;> norm_num

theorem fl32_twentieth_plus_one :
    fl32 (13421773 / 268435456 + 1) = 4404019 / 4194304 := by
  rw [fl32_eq_pos 0 8808038] <;> norm_num

theorem fl32_180_deg : fl32 (180 * Degree2Radian) = 13176793 / 4194304 := by
  rw [fl32_eq_pos 1 13176793] <;> norm_num [Degree2Radian]

theorem fl32_90_deg : fl32 (90 * Degree2Radian) = 13176793 / 8388608 := by
  rw [fl32_eq_pos 0 13176793] <;> norm_num [Degree2Radian]

theorem Degree2Radian_eq : Degree2Radian = fl32 (1745329 / 100000000) := by
  rw [fl32_eq_pos (-6) 9370164] <;> norm_num [Degree2Radian]

/-! ## Lemmas on the actor -/

theorem processLoop_eq (lo hi : ℚ) (img : List Nat) :
    ∀ acc : List ℚ, processLoop lo hi acc img = acc ++ img.map (processPixel lo hi) := by
  induction img with
  | nil => intro acc; simp [processLoop]
  | cons e rest ih => intro acc; simp [processLoop, ih]

theorem natDiv_cast_eq_floor (n : Nat) : ((n / 100 : Nat) : ℚ) = ((⌊(n : ℚ) / 100⌋ : ℤ) : ℚ) := by
  have h : ⌊(n : ℚ) / 100⌋ = ((n / 100 : Nat) : ℤ) := by
    have := Rat.floor_intCast_div_natCast (n : ℤ) 100
    simpa using this
  rw [h]; exact (Int.cast_natCast _).symm

theorem publishedOf_append (xs ys : List HandlerCall) :
    publishedOf (xs ++ ys) = publishedOf xs ++ publishedOf ys := by
  induction xs with
  | nil => simp [publishedOf]
  | cons c cs ih => cases c <;> simp [publishedOf, ih]

theorem Tick_idle (a : ALidarActor) (i : TickInput)
    (h : fl32 (a.TimePassed + i.DeltaTime) < a.TimePerScan) :
    a.Tick i = some { a with TimePassed := fl32 (a.TimePassed + i.DeltaTime) } := by
  simp [ALidarActor.Tick, h]

theorem Tick_fire (a : ALidarActor) (i : TickInput) (m : LaserScan) (h : FROSBridgeHandler)
    (hm : a.ScanData = some m) (hh : a.Handler = some h)
    (hf : a.TimePerScan ≤ fl32 (a.TimePassed + i.DeltaTime)) :
    a.Tick i = some { a with
      TimePassed := 0
      TickCount := (a.TickCount + 1) % 2 ^ 32
      ScanData := some (a.pack m i)
      Handler := some
        { h with Calls := h.Calls ++ [HandlerCall.PublishMsg a.ROSTopic (a.pack m i), HandlerCall.Process] } } := by
  simp [ALidarActor.Tick, not_lt.mpr hf, hm, hh]

theorem Published_fire (a : ALidarActor) (i : TickInput) (m : LaserScan) (h : FROSBridgeHandler)
    (hm : a.ScanData = some m) (hh : a.Handler = some h)
    (hf : a.TimePerScan ≤ fl32 (a.TimePassed + i.DeltaTime)) :
    ∃ b, a.Tick i = some b ∧ b.Published = a.Published ++ [a.pack m i] ∧ b.TimePassed = 0 ∧
      b.TickCount = (a.TickCount + 1) % 2 ^ 32 ∧ b.ScanData = some (a.pack m i) ∧
      ∃ h2, b.Handler = some h2 ∧ h2.Connected = h.Connected := by
  refine ⟨_, Tick_fire a i m h hm hh hf, ?_, rfl, rfl, rfl, _, rfl, rfl⟩
  simp [ALidarActor.Published, hh, publishedOf_append, publishedOf]

theorem sampleActor_fires (ConnectOk : Bool) (img : List Nat) :
    (sampleActor ConnectOk).TimePerScan ≤
      fl32 ((sampleActor ConnectOk).TimePassed + (sampleFrame (1 / 10) img).DeltaTime) := by
  show fl32 (1 / 10) ≤ fl32 (0 + fl32 (1 / 10))
  rw [fl32_tenth, zero_add, fl32_tenth_f]

theorem sampleActor_idle (ConnectOk : Bool) (img : List Nat) :
    fl32 ((sampleActor ConnectOk).TimePassed + (sampleFrame (1 / 20) img).DeltaTime) <
      (sampleActor ConnectOk).TimePerScan := by
  show fl32 (0 + fl32 (1 / 20)) < fl32 (1 / 10)
  rw [fl32_tenth, fl32_twentieth, zero_add, fl32_twentieth_f]
  norm_num

/-! ## Depth conversion -/

/-- C1 (as amended): for every pixel encoding and every minimum and maximum
distance, the value the pixel loop emits is the whole number `⌊raw / 100⌋`
(the integer quotient) when `MinimumDistance < ⌊raw / 100⌋ < MaximumDistance`,
strict on both sides, and `0` otherwise; the loop appends these values in
order, and for the encodings `[50, 250, 9999]` with distances `1` and `50` it
appends `[0, 2, 0]`. -/
theorem C1_depth_conversion (MinimumDistance MaximumDistance : ℚ) (Encoded : Nat) :
    processPixel MinimumDistance MaximumDistance Encoded =
        (if MinimumDistance < (⌊(Encoded : ℚ) / 100⌋ : ℤ) ∧
            ((⌊(Encoded : ℚ) / 100⌋ : ℤ) : ℚ) < MaximumDistance
          then ((⌊(Encoded : ℚ) / 100⌋ : ℤ) : ℚ) else 0) ∧
      (∀ acc : List ℚ, processLoop 1 50 acc [50, 250, 9999] = acc ++ [0, 2, 0]) := by
  constructor
  · unfold processPixel
    rw [natDiv_cast_eq_floor]
  · intro acc
    rw [processLoop_eq]
    norm_num [processPixel]

/-- C1 (as stated) fails: the encoding `250` lies strictly between `1 * 100`
and `50 * 100`, yet the loop emits `2`, not `250 / 100`. -/
theorem C1_counterexample :
    processPixel 1 50 250 = 2 ∧
      processPixel 1 50 250 ≠
        (if (1 : ℚ) * 100 < (250 : Nat) ∧ ((250 : Nat) : ℚ) < 50 * 100 then ((250 : Nat) : ℚ) / 100 else 0) := by
  norm_num [processPixel]

/-- C2 (the code departs from it): the array that `Tick` attaches to the
message has `SCSResolution` more elements than the depth buffer, for every
buffer: the converted values follow `SCSResolution` leading slots that were
never written.  With the 1080 pixels the render target delivers, all encoded
`250`, the one message published carries 2160 ranges: 1080 slots of whatever
was in memory, then 1080 times `2`. -/
theorem C2_processed_length :
    (∀ (a : ALidarActor) (i : TickInput),
        (a.ProcessedDepthImage i).length = a.SCSResolution + i.DepthImage.length ∧
        (a.ProcessedDepthImage i).take a.SCSResolution = (List.range a.SCSResolution).map i.Uninitialized ∧
        (a.ProcessedDepthImage i).drop a.SCSResolution =
          i.DepthImage.map (processPixel a.MinimumDistance a.MaximumDistance)) ∧
      ∃ b, (sampleActor true).Tick (sampleFrame (1 / 10) (List.replicate 1080 250)) = some b ∧
        (List.replicate 1080 250).length = 1080 ∧
        b.Published.map (fun m => m.ranges.length) = [2160] ∧
        b.Published.map (fun m => m.ranges.take 1080) = [List.replicate 1080 (-1)] ∧
        b.Published.map (fun m => m.ranges.drop 1080) = [List.replicate 1080 2] := by
  have key : ∀ (a : ALidarActor) (i : TickInput),
      (a.ProcessedDepthImage i).length = a.SCSResolution + i.DepthImage.length ∧
      (a.ProcessedDepthImage i).take a.SCSResolution = (List.range a.SCSResolution).map i.Uninitialized ∧
      (a.ProcessedDepthImage i).drop a.SCSResolution =
        i.DepthImage.map (processPixel a.MinimumDistance a.MaximumDistance) := by
    intro a i
    unfold ALidarActor.ProcessedDepthImage
    rw [processLoop_eq]
    refine ⟨by simp, ?_, ?_⟩
    · rw [List.take_left']; simp
    · rw [List.drop_left']; simp
  refine ⟨key, ?_⟩
  obtain ⟨img, himg⟩ : ∃ img : List Nat, img = List.replicate 1080 250 := ⟨_, rfl⟩
  have hn : img.length = 1080 := by rw [himg, List.length_replicate]
  have hmap : img.map (processPixel 1 50) = List.replicate 1080 2 := by
    have h2 : processPixel 1 50 250 = 2 := by norm_num [processPixel]
    rw [himg, List.map_replicate, h2]
  have hjunk : (List.range 1080).map (fun _ => (-1 : ℚ)) = List.replicate 1080 (-1) := by
    rw [List.map_const', List.length_range]
  rw [← himg]
  have h0 : (sampleActor true).Published = [] := by
    simp [ALidarActor.Published, sampleActor, ALidarActor.BeginPlay, publishedOf]
  obtain ⟨hlen, htake, hdrop⟩ := key (sampleActor true) (sampleFrame (1 / 10) img)
  obtain ⟨b, hb, hpub, -⟩ := Published_fire (sampleActor true) (sampleFrame (1 / 10) img) _ _ rfl rfl
    (sampleActor_fires true img)
  refine ⟨b, hb, hn, ?_, ?_, ?_⟩
  · rw [hpub, h0]
    simp only [List.nil_append, List.map_cons, List.map_nil, ALidarActor.pack]
    rw [hlen]
    show [1080 + img.length] = [2160]
    rw [hn]
  · rw [hpub, h0]
    simp only [List.nil_append, List.map_cons, List.map_nil, ALidarActor.pack]
    exact congrArg (fun l => [l]) (htake.trans hjunk)
  · rw [hpub, h0]
    simp only [List.nil_append, List.map_cons, List.map_nil, ALidarActor.pack]
    exact congrArg (fun l => [l]) (hdrop.trans hmap)

/-! ## The scheduler -/

/-- C3 (as amended): in a playing actor with non-negative `TimePerScan`,
`TimePassed` and `DeltaTime`, one call of `Tick` hands exactly one more
message to the handler and leaves `TimePassed` at `0` when the `float` sum of
`TimePassed` and `DeltaTime` has reached `TimePerScan` (by however many
periods), and otherwise hands over nothing and leaves that `float` sum in
`TimePassed`; with `TimePerScan = 0` every call fires.  With
`TimePerScan = 0.1f`, a first frame of `0.05f` fires nothing and the next
frame of `0.05f` fires exactly one cycle. -/
theorem C3_scheduler_step (a : ALidarActor) (i : TickInput)
    (ScanData : LaserScan) (Handler : FROSBridgeHandler)
    (hScan : a.ScanData = some ScanData) (hHandler : a.Handler = some Handler)
    (hPeriod : 0 ≤ a.TimePerScan) (hPassed : 0 ≤ a.TimePassed) (hDelta : 0 ≤ i.DeltaTime) :
    (a.TimePerScan ≤ fl32 (a.TimePassed + i.DeltaTime) →
        ∃ b, a.Tick i = some b ∧ b.TimePassed = 0 ∧
          b.Published.length = a.Published.length + 1 ∧
          b.TickCount = (a.TickCount + 1) % 2 ^ 32) ∧
      (fl32 (a.TimePassed + i.DeltaTime) < a.TimePerScan →
        ∃ b, a.Tick i = some b ∧ b.TimePassed = fl32 (a.TimePassed + i.DeltaTime) ∧
          b.Published = a.Published ∧ b.TickCount = a.TickCount) ∧
      (a.TimePerScan = 0 →
        ∃ b, a.Tick i = some b ∧ b.TimePassed = 0 ∧
          b.Published.length = a.Published.length + 1) ∧
      (∃ b c, (sampleActor true).Tick (sampleFrame (1 / 20) [50, 250, 9999]) = some b ∧
        b.Published.length = 0 ∧
        b.Tick (sampleFrame (1 / 20) [50, 250, 9999]) = some c ∧
        c.Published.length = 1) := by
  have _hP := hPeriod
  have fire : a.TimePerScan ≤ fl32 (a.TimePassed + i.DeltaTime) →
      ∃ b, a.Tick i = some b ∧ b.TimePassed = 0 ∧
        b.Published.length = a.Published.length + 1 ∧
        b.TickCount = (a.TickCount + 1) % 2 ^ 32 := by
    intro hf
    obtain ⟨b, hb, hpub, ht, hc, -⟩ := Published_fire a i ScanData Handler hScan hHandler hf
    exact ⟨b, hb, ht, by rw [hpub]; simp, hc⟩
  refine ⟨fire, ?_, ?_, ?_⟩
  · intro hlt
    exact ⟨_, Tick_idle a i hlt, rfl, rfl, rfl⟩
  · intro h0
    obtain ⟨b, hb, ht, hl, -⟩ :=
      fire (by rw [h0]; exact fl32_nonneg _ (add_nonneg hPassed hDelta))
    exact ⟨b, hb, ht, hl⟩
  · have h1 := sampleActor_idle true [50, 250, 9999]
    have h0 : (sampleActor true).Published = [] := by
      simp [ALidarActor.Published, sampleActor, ALidarActor.BeginPlay, publishedOf]
    obtain ⟨c, hc, hpub, -⟩ := Published_fire
      { sampleActor true with
        TimePassed :=
          fl32 ((sampleActor true).TimePassed + (sampleFrame (1 / 20) [50, 250, 9999]).DeltaTime) }
      (sampleFrame (1 / 20) [50, 250, 9999]) _ _ rfl rfl
      (by
        show fl32 (1 / 10) ≤ fl32 (fl32 (0 + fl32 (1 / 20)) + fl32 (1 / 20))
        rw [fl32_tenth, fl32_twentieth, zero_add, fl32_twentieth_f, fl32_twentieth_twice])
    refine ⟨_, c, Tick_idle _ _ h1, ?_, hc, ?_⟩
    · exact congrArg List.length h0
    · rw [hpub]
      have : ({ sampleActor true with
          TimePassed :=
            fl32 ((sampleActor true).TimePassed + (sampleFrame (1 / 20) [50, 250, 9999]).DeltaTime) }
          : ALidarActor).Published = [] := h0
      rw [this]; rfl

/-- C3 at the sample actor: a frame of `0.05f` against a period of `0.1f`
leaves `0.05f` in `TimePassed` and publishes nothing. -/
theorem C3_scheduler_step_witness :
    (sampleActor true).ScanData ≠ none ∧ (0 : ℚ) ≤ fl32 (1 / 20) ∧
      ∃ b, (sampleActor true).Tick (sampleFrame (1 / 20) [50, 250, 9999]) = some b ∧
        b.TimePassed = 13421773 / 268435456 ∧ b.Published = [] ∧ b.TickCount = 0 := by
  refine ⟨by simp [sampleActor, ALidarActor.BeginPlay], fl32_nonneg _ (by norm_num), ?_⟩
  obtain ⟨b, hb, ht, hp, hc⟩ :=
    (C3_scheduler_step (sampleActor true) (sampleFrame (1 / 20) [50, 250, 9999]) _ _ rfl rfl
      (show (0 : ℚ) ≤ fl32 (1 / 10) from fl32_nonneg _ (by norm_num))
      (show (0 : ℚ) ≤ 0 from le_refl 0)
      (show (0 : ℚ) ≤ fl32 (1 / 20) from fl32_nonneg _ (by norm_num))).2.1
      (sampleActor_idle true [50, 250, 9999])
  refine ⟨b, hb, ?_, ?_, ?_⟩
  · rw [ht]
    show fl32 (0 + fl32 (1 / 20)) = 13421773 / 268435456
    rw [fl32_twentieth, zero_add, fl32_twentieth_f]
  · rw [hp]; simp [ALidarActor.Published, sampleActor, ALidarActor.BeginPlay, publishedOf]
  · rw [hc]; rfl

/-- C3 (as stated) fails: with `TimePerScan = 0.3f`, a frame of `0.1f` leaves
`TimePassed = 0.1f`; on the next frame of `0.2f` the exact sum of `TimePassed`
and `DeltaTime` lies below `TimePerScan`, yet their `float` sum is `0.3f`, and
the call fires a cycle and resets `TimePassed`. -/
theorem C3_counterexample :
    ∃ b c, ((ALidarActor.new { sampleSpecs with TimePerScan := fl32 (3 / 10) }).BeginPlay true).Tick
          (sampleFrame (1 / 10) [50, 250, 9999]) = some b ∧
      b.Published = [] ∧ b.TimePassed = 13421773 / 134217728 ∧
      b.TimePerScan = 5033165 / 16777216 ∧
      (sampleFrame (1 / 5) [50, 250, 9999]).DeltaTime = 13421773 / 67108864 ∧
      b.TimePassed + (sampleFrame (1 / 5) [50, 250, 9999]).DeltaTime < b.TimePerScan ∧
      b.Tick (sampleFrame (1 / 5) [50, 250, 9999]) = some c ∧
      c.Published.length = 1 ∧ c.TimePassed = 0 := by
  have hidle : fl32 (((ALidarActor.new { sampleSpecs with TimePerScan := fl32 (3 / 10) }).BeginPlay
      true).TimePassed + (sampleFrame (1 / 10) [50, 250, 9999]).DeltaTime) <
      ((ALidarActor.new { sampleSpecs with TimePerScan := fl32 (3 / 10) }).BeginPlay
        true).TimePerScan := by
    show fl32 (0 + fl32 (1 / 10)) < fl32 (3 / 10)
    rw [fl32_tenth, fl32_three_tenths, zero_add, fl32_tenth_f]
    norm_num
  have ht : fl32 (((ALidarActor.new { sampleSpecs with TimePerScan := fl32 (3 / 10) }).BeginPlay
      true).TimePassed + (sampleFrame (1 / 10) [50, 250, 9999]).DeltaTime) =
      13421773 / 134217728 := by
    show fl32 (0 + fl32 (1 / 10)) = 13421773 / 134217728
    rw [fl32_tenth, zero_add, fl32_tenth_f]
  have hp : ((ALidarActor.new { sampleSpecs with TimePerScan := fl32 (3 / 10) }).BeginPlay
      true).TimePerScan = 5033165 / 16777216 := fl32_three_tenths
  have hd : (sampleFrame (1 / 5) [50, 250, 9999]).DeltaTime = 13421773 / 67108864 := fl32_fifth
  obtain ⟨c, hc, hpub, htc, -⟩ := Published_fire
    { (ALidarActor.new { sampleSpecs with TimePerScan := fl32 (3 / 10) }).BeginPlay true with
      TimePassed := fl32 (((ALidarActor.new { sampleSpecs with TimePerScan := fl32 (3 / 10) }).BeginPlay
        true).TimePassed + (sampleFrame (1 / 10) [50, 250, 9999]).DeltaTime) }
    (sampleFrame (1 / 5) [50, 250, 9999]) _ _ rfl rfl
    (by
      show ((ALidarActor.new { sampleSpecs with TimePerScan := fl32 (3 / 10) }).BeginPlay
          true).TimePerScan ≤
        fl32 (fl32 (((ALidarActor.new { sampleSpecs with TimePerScan := fl32 (3 / 10) }).BeginPlay
          true).TimePassed + (sampleFrame (1 / 10) [50, 250, 9999]).DeltaTime) +
          (sampleFrame (1 / 5) [50, 250, 9999]).DeltaTime)
      rw [ht, hp, hd, fl32_tenth_plus_fifth])
  refine ⟨_, c, Tick_idle _ _ hidle, ?_, ht, hp, hd, ?_, hc, ?_, htc⟩
  · simp [ALidarActor.Published, ALidarActor.BeginPlay, publishedOf]
  · show fl32 (((ALidarActor.new { sampleSpecs with TimePerScan := fl32 (3 / 10) }).BeginPlay
        true).TimePassed + (sampleFrame (1 / 10) [50, 250, 9999]).DeltaTime) +
        (sampleFrame (1 / 5) [50, 250, 9999]).DeltaTime <
      ((ALidarActor.new { sampleSpecs with TimePerScan := fl32 (3 / 10) }).BeginPlay true).TimePerScan
    rw [ht, hp, hd]
    norm_num
  · rw [hpub]
    simp [ALidarActor.Published, ALidarActor.BeginPlay, publishedOf]

/-! ## Sequence numbers -/

theorem Tick_idle_at (a : ALidarActor) (i : TickInput) (t p : ℚ)
    (ht : a.TimePassed = t) (hp : a.TimePerScan = p) (hlt : fl32 (t + i.DeltaTime) < p) :
    ∃ b, a.Tick i = some b ∧ b.TimePassed = fl32 (t + i.DeltaTime) ∧ b.TimePerScan = p ∧
      b.Published = a.Published ∧ b.ScanData = a.ScanData ∧ b.Handler = a.Handler := by
  subst ht hp
  exact ⟨_, Tick_idle a i hlt, rfl, rfl, rfl, rfl, rfl⟩

theorem Tick_fire_at (a : ALidarActor) (i : TickInput) (t p : ℚ) (m : LaserScan)
    (h : FROSBridgeHandler) (ht : a.TimePassed = t) (hp : a.TimePerScan = p)
    (hm : a.ScanData = some m) (hh : a.Handler = some h) (hge : p ≤ fl32 (t + i.DeltaTime)) :
    ∃ b, a.Tick i = some b ∧ b.TimePassed = 0 ∧ b.TimePerScan = p ∧
      b.Published = a.Published ++ [a.pack m i] ∧
      (∃ m2, b.ScanData = some m2) ∧ ∃ h2, b.Handler = some h2 := by
  subst ht hp
  obtain ⟨b, hb, hpub, -⟩ := Published_fire a i m h hm hh hge
  have hb2 := Tick_fire a i m h hm hh hge
  have : some b = some _ := hb.symm.trans hb2
  cases this
  exact ⟨_, hb2, rfl, rfl, hpub, ⟨_, rfl⟩, ⟨_, rfl⟩⟩

theorem Counted_BeginPlay (p : ScanSpecs) (ConnectOk : Bool) :
    ((ALidarActor.new p).BeginPlay ConnectOk).Counted := by
  refine ⟨⟨_, rfl⟩, ⟨_, rfl⟩, ?_, ?_⟩ <;>
    simp [ALidarActor.Published, ALidarActor.BeginPlay, ALidarActor.new, publishedOf]

theorem Counted_Tick (a : ALidarActor) (i : TickInput) (ha : a.Counted) :
    ∃ b, a.Tick i = some b ∧ b.Counted := by
  obtain ⟨⟨m, hm⟩, ⟨h, hh⟩, hc, hs⟩ := ha
  by_cases hlt : fl32 (a.TimePassed + i.DeltaTime) < a.TimePerScan
  · exact ⟨_, Tick_idle a i hlt, ⟨m, hm⟩, ⟨h, hh⟩, hc, hs⟩
  · obtain ⟨b, hb, hpub, -, hcount, hscan, h2, hh2, -⟩ :=
      Published_fire a i m h hm hh (not_lt.mp hlt)
    refine ⟨b, hb, ⟨_, hscan⟩, ⟨h2, hh2⟩, ?_, ?_⟩
    · rw [hcount, hpub, hc]
      simp only [List.length_append, List.length_singleton]
      norm_num
    · rw [hpub]
      simp only [List.map_append, List.length_append, List.length_singleton, List.range_succ,
        List.map_cons, List.map_nil, hs, ALidarActor.pack]
      rw [hc]
      norm_num

theorem Counted_Ticks (frames : List TickInput) :
    ∀ a : ALidarActor, a.Counted → ∃ b, a.Ticks frames = some b ∧ b.Counted := by
  induction frames with
  | nil => intro a ha; exact ⟨a, rfl, ha⟩
  | cons i rest ih =>
    intro a ha
    obtain ⟨b, hb, hbc⟩ := Counted_Tick a i ha
    obtain ⟨c, hc, hcc⟩ := ih b hbc
    exact ⟨c, by simp [ALidarActor.Ticks, hb, hc], hcc⟩

theorem range_succ_mod (n : Nat) (hn : n < 2 ^ 32) :
    (List.range n).map (fun k => (k + 1) % 2 ^ 32) = List.range' 1 n := by
  rw [List.range'_eq_map_range]
  apply List.map_congr_left
  intro k hk
  have hk2 : k < n := List.mem_range.mp hk
  have : k + 1 < 2 ^ 32 := by omega
  rw [Nat.mod_eq_of_lt this]; omega

/-- C4: from a freshly constructed actor put into play, every sequence of
`Tick` calls runs through, and if `N` messages were published, `N` below
`2^32`, their sequence numbers are `1, 2, ..., N` in order (the first is `1`,
each next one is the previous plus one); a `Tick` that does not fire leaves
`TickCount` and the published messages as they were. -/
theorem C4_sequence_numbers (p : ScanSpecs) (ConnectOk : Bool) (frames : List TickInput) :
    (∃ b, ((ALidarActor.new p).BeginPlay ConnectOk).Ticks frames = some b ∧
      (b.Published.length < 2 ^ 32 →
        b.Published.map (fun m => m.header.seq) = List.range' 1 b.Published.length ∧
        b.TickCount = b.Published.length)) ∧
      (∀ (a : ALidarActor) (i : TickInput), fl32 (a.TimePassed + i.DeltaTime) < a.TimePerScan →
        ∃ b, a.Tick i = some b ∧ b.TickCount = a.TickCount ∧ b.Published = a.Published) := by
  constructor
  · obtain ⟨b, hb, -, -, hc, hs⟩ := Counted_Ticks frames _ (Counted_BeginPlay p ConnectOk)
    refine ⟨b, hb, fun hN => ⟨?_, ?_⟩⟩
    · rw [hs, range_succ_mod _ hN]
    · rw [hc, Nat.mod_eq_of_lt hN]
  · intro a i hlt
    exact ⟨_, Tick_idle a i hlt, rfl, rfl⟩

/-- C4 on four frames against a period of `0.1f`: the second and the fourth
fire, and the two messages are numbered `1` and `2`. -/
theorem C4_sequence_numbers_witness :
    ∃ b, (sampleActor false).Ticks
        [sampleFrame (1 / 20) [250], sampleFrame (1 / 20) [250],
          sampleFrame (1 / 20) [250], sampleFrame 1 [250]] = some b ∧
      b.Published.length = 2 ∧ b.Published.length < 2 ^ 32 ∧
      b.Published.map (fun m => m.header.seq) = [1, 2] ∧ b.TickCount = 2 := by
  obtain ⟨b, hb, hseq⟩ := (C4_sequence_numbers sampleSpecs false
    [sampleFrame (1 / 20) [250], sampleFrame (1 / 20) [250],
      sampleFrame (1 / 20) [250], sampleFrame 1 [250]]).1
  have hd : (sampleFrame (1 / 20) [250]).DeltaTime = 13421773 / 268435456 := fl32_twentieth
  have hd1 : (sampleFrame 1 [250]).DeltaTime = 1 := fl32_one
  have hp0 : ((ALidarActor.new sampleSpecs).BeginPlay false).TimePerScan = 13421773 / 134217728 :=
    fl32_tenth
  have h0 : ((ALidarActor.new sampleSpecs).BeginPlay false).Published = [] := by
    simp [ALidarActor.Published, ALidarActor.BeginPlay, publishedOf]
  obtain ⟨a1, e1, t1, p1, pub1, s1, g1⟩ := Tick_idle_at _ (sampleFrame (1 / 20) [250]) 0 _ rfl hp0
    (by rw [hd, zero_add, fl32_twentieth_f]; norm_num)
  rw [hd, zero_add, fl32_twentieth_f] at t1
  obtain ⟨a2, e2, t2, p2, pub2, ⟨m2, s2⟩, ⟨h2, g2⟩⟩ :=
    Tick_fire_at a1 (sampleFrame (1 / 20) [250]) _ _ _ _ t1 p1 (s1.trans rfl) (g1.trans rfl)
      (by rw [hd, fl32_twentieth_twice])
  obtain ⟨a3, e3, t3, p3, pub3, s3, g3⟩ := Tick_idle_at a2 (sampleFrame (1 / 20) [250]) _ _ t2 p2
    (by rw [hd, zero_add, fl32_twentieth_f]; norm_num)
  rw [hd, zero_add, fl32_twentieth_f] at t3
  obtain ⟨a4, e4, -, -, pub4, -, -⟩ :=
    Tick_fire_at a3 (sampleFrame 1 [250]) _ _ _ _ t3 p3 (s3.trans s2) (g3.trans g2)
      (by rw [hd1, fl32_twentieth_plus_one]; norm_num)
  have hrun : ((ALidarActor.new sampleSpecs).BeginPlay false).Ticks
      [sampleFrame (1 / 20) [250], sampleFrame (1 / 20) [250],
        sampleFrame (1 / 20) [250], sampleFrame 1 [250]] = some a4 := by
    simp only [ALidarActor.Ticks, e1, e2, e3, e4]
  have hba : b = a4 := Option.some.inj (hb.symm.trans hrun)
  have hlen : b.Published.length = 2 := by
    rw [hba, pub4, pub3, pub2, pub1, h0]; rfl
  have hN : b.Published.length < 2 ^ 32 := by rw [hlen]; norm_num
  obtain ⟨h1, h2⟩ := hseq hN
  rw [hlen] at h1 h2
  exact ⟨b, hb, hlen, hN, h1, h2⟩

/-! ## The property hook -/

theorem fl32_le_of_nonneg (x : ℚ) (hx : 0 ≤ x) : fl32 x ≤ x + x / 2 ^ 24 + 1 / 2 ^ 150 := by
  have h := fl32_sub_le x
  rw [abs_of_nonneg hx, abs_le] at h
  linarith [h.2]

theorem fl32_ge_of_nonneg (x : ℚ) (hx : 0 ≤ x) : x - x / 2 ^ 24 - 1 / 2 ^ 150 ≤ fl32 x := by
  have h := fl32_sub_le x
  rw [abs_of_nonneg hx, abs_le] at h
  linarith [h.1]

theorem fl64_le_of_nonneg (x : ℚ) (hx : 0 ≤ x) : fl64 x ≤ x + x / 2 ^ 53 + 1 / 2 ^ 1075 := by
  have h := fl64_sub_le x
  rw [abs_of_nonneg hx, abs_le] at h
  linarith [h.2]

theorem fl64_ge_of_nonneg (x : ℚ) (hx : 0 ≤ x) : x - x / 2 ^ 53 - 1 / 2 ^ 1075 ≤ fl64 x := by
  have h := fl64_sub_le x
  rw [abs_of_nonneg hx, abs_le] at h
  linarith [h.1]

theorem fl32_half : fl32 (1 / 2) = 1 / 2 := by
  rw [fl32_eq_pos (-1) 8388608] <;> norm_num

theorem fl32_two : fl32 2 = 2 := by
  rw [fl32_eq_pos 1 8388608] <;> norm_num

theorem fl32_360 : fl32 360 = 360 := by
  rw [fl32_eq_pos 8 11796480] <;> norm_num

theorem fl32_180 : fl32 180 = 180 := by
  rw [fl32_eq_pos 7 11796480] <;> norm_num

theorem fl64_one : fl64 1 = 1 := by
  rw [fl64_eq_pos 0 4503599627370496] <;> norm_num

theorem fl64_half : fl64 (1 / 2) = 1 / 2 := by
  rw [fl64_eq_pos (-1) 4503599627370496] <;> norm_num

theorem fl64_180 : fl64 180 = 180 := by
  rw [fl64_eq_pos 7 6333186975989760] <;> norm_num

theorem fl64_720 : fl64 720 = 720 := by
  rw [fl64_eq_pos 9 6333186975989760] <;> norm_num

theorem fl32_half_degree : fl32 (1 / 2 * Degree2Radian) = Degree2Radian / 2 := by
  rw [fl32_eq_pos (-7) 9370164] <;> norm_num [Degree2Radian]

theorem fl32_31_deg : fl32 (31 * Degree2Radian) = 4538673 / 8388608 := by
  rw [fl32_eq_pos (-1) 9077346] <;> norm_num [Degree2Radian]

theorem fl32_31_back : fl32 (4538673 / 8388608 / Degree2Radian) = 16252927 / 524288 := by
  rw [fl32_eq_pos 4 16252927] <;> norm_num [Degree2Radian]

theorem fl64_ratio_75 : fl64 (360 / 75) = 5404319552844595 / 1125899906842624 := by
  rw [fl64_eq_pos 2 5404319552844595] <;> norm_num

theorem fl32_ratio_75 : fl32 (5404319552844595 / 1125899906842624) = 5033165 / 1048576 := by
  rw [fl32_eq_pos 2 10066330] <;> norm_num

theorem fl32_72_by_75 : fl32 (72 / (5033165 / 1048576)) = 15728639 / 1048576 := by
  rw [fl32_eq_pos 3 15728639] <;> norm_num

theorem Degree2Radian_ne_zero : Degree2Radian ≠ 0 := by
  norm_num [Degree2Radian]

theorem toUInt16_natCast (n : ℕ) (hn : n < 65536) : toUInt16 (n : ℚ) = some n := by
  have h1 : (-1 : ℚ) < n := by
    have : (0 : ℚ) ≤ n := Nat.cast_nonneg n
    linarith
  have h2 : (n : ℚ) < 65536 := by exact_mod_cast hn
  simp [toUInt16, h1, h2]

theorem toUInt16_eq (x : ℚ) (h1 : -1 < x) (h2 : x < 65536) : toUInt16 x = some ⌊x⌋₊ := by
  simp [toUInt16, h1, h2]

theorem fdiv32_eq (x y : ℚ) (hy : y ≠ 0) : fdiv32 x y = some (fl32 (x / y)) := by
  simp [fdiv32, hy]

theorem fdiv64_eq (x y : ℚ) (hy : y ≠ 0) : fdiv64 x y = some (fl64 (x / y)) := by
  simp [fdiv64, hy]

theorem sampleActor_consistent (ConnectOk : Bool) : (sampleActor ConnectOk).ResolutionConsistent := by
  refine ⟨?_, ?_, ?_⟩
  · show Degree2Radian = 1 * Degree2Radian
    ring
  · show (fdiv 180 1).bind toUInt16 = some 180
    norm_num [fdiv, toUInt16]
  · show (fdiv 360 1).bind toUInt16 = some 360
    norm_num [fdiv, toUInt16]

theorem hook_ScanAngleRad (a : ALidarActor) :
    a.PostEditChangeProperty PropertyName.ScanAngleRad =
      some { a with
        ScanAngleDeg := fl32 (a.ScanAngleRad / Degree2Radian)
        FOVAngle := fl32 (a.ScanAngleRad / Degree2Radian) } := by
  simp [ALidarActor.PostEditChangeProperty, fdiv32, Degree2Radian_ne_zero]

theorem hook_AngularResInDeg (a : ALidarActor) (k1 k2 : ℕ)
    (h1 : (fdiv32 a.ScanAngleDeg a.AngularResInDeg).bind toUInt16 = some k1)
    (h2 : (fdiv64 360 a.AngularResInDeg).bind toUInt16 = some k2) :
    a.PostEditChangeProperty PropertyName.AngularResInDeg =
      some { a with
        AngularResInRad := fl32 (a.AngularResInDeg * Degree2Radian)
        AngularResStepsInside := k1
        AngularResStepsOf360 := k2 } := by
  simp [ALidarActor.PostEditChangeProperty, h1, h2]

theorem hook_AngularResStepsInside (a : ALidarActor) (r : ℚ) (k : ℕ)
    (h1 : fdiv32 a.ScanAngleDeg a.AngularResStepsInside = some r)
    (h2 : (fdiv64 360 r).bind toUInt16 = some k) :
    a.PostEditChangeProperty PropertyName.AngularResStepsInside =
      some { a with AngularResInDeg := r, AngularResStepsOf360 := k } := by
  simp [ALidarActor.PostEditChangeProperty, h1, h2]

theorem hook_AngularResStepsOf360 (a : ALidarActor) (r : ℚ)
    (h1 : (fdiv64 360 a.AngularResStepsOf360).map fl32 = some r) (hr : r ≠ 0) :
    a.PostEditChangeProperty PropertyName.AngularResStepsOf360 =
      (toUInt16 (fl32 (a.ScanAngleDeg / r))).map fun k =>
        { a with AngularResInDeg := r, AngularResStepsInside := k } := by
  simp only [ALidarActor.PostEditChangeProperty, h1, Option.bind_eq_bind, Option.some_bind,
    fdiv32_eq _ _ hr]
  cases toUInt16 (fl32 (a.ScanAngleDeg / r)) <;> rfl

/-- C5 (the code departs from it): the sample actor has its four resolution
forms in agreement.  After the editor sets `AngularResStepsOf360` to `720`,
the hook recomputes `AngularResInDeg` to `1/2` and `AngularResStepsInside` to
`360` but leaves `AngularResInRad` at its old value, which is no longer
`AngularResInDeg * Degree2Radian`; after it sets `AngularResStepsInside` to
`90`, likewise (`AngularResInDeg` becomes `2`).  The branch for
`AngularResInDeg`, at `1/2`, recomputes all three other forms. -/
theorem C5_resolution_setters :
    (sampleActor true).ResolutionConsistent ∧
      (∃ b, ALidarActor.PostEditChangeProperty { sampleActor true with AngularResStepsOf360 := 720 }
            PropertyName.AngularResStepsOf360 = some b ∧
        b.AngularResInDeg = 1 / 2 ∧ b.AngularResStepsInside = 360 ∧ b.AngularResStepsOf360 = 720 ∧
        b.AngularResInRad = Degree2Radian ∧ b.AngularResInDeg * Degree2Radian = Degree2Radian / 2 ∧
        ¬ b.ResolutionConsistent) ∧
      (∃ b, ALidarActor.PostEditChangeProperty { sampleActor true with AngularResStepsInside := 90 }
            PropertyName.AngularResStepsInside = some b ∧
        b.AngularResInDeg = 2 ∧ b.AngularResStepsInside = 90 ∧ b.AngularResStepsOf360 = 180 ∧
        b.AngularResInRad = Degree2Radian ∧ b.AngularResInDeg * Degree2Radian = Degree2Radian * 2 ∧
        ¬ b.ResolutionConsistent) ∧
      (∃ b, ALidarActor.PostEditChangeProperty { sampleActor true with AngularResInDeg := 1 / 2 }
            PropertyName.AngularResInDeg = some b ∧
        b.AngularResInDeg = 1 / 2 ∧ b.AngularResStepsInside = 360 ∧ b.AngularResStepsOf360 = 720 ∧
        b.AngularResInRad = Degree2Radian / 2 ∧ b.ResolutionConsistent) := by
  have h360 : toUInt16 360 = some 360 := by simpa using toUInt16_natCast 360 (by norm_num)
  have h180 : toUInt16 180 = some 180 := by simpa using toUInt16_natCast 180 (by norm_num)
  have h720 : toUInt16 720 = some 720 := by simpa using toUInt16_natCast 720 (by norm_num)
  have q1 : (180 : ℚ) / (1 / 2) = 360 := by norm_num
  have q2 : (360 : ℚ) / (1 / 2) = 720 := by norm_num
  refine ⟨sampleActor_consistent true, ?_, ?_, ?_⟩
  · have hr : (fdiv64 360 ((720 : ℕ) : ℚ)).map fl32 = some (1 / 2) := by
      rw [fdiv64_eq _ _ (by norm_num)]
      have : (360 : ℚ) / ((720 : ℕ) : ℚ) = 1 / 2 := by norm_num
      rw [this, Option.map_some', fl64_half, fl32_half]
    have hb := hook_AngularResStepsOf360 { sampleActor true with AngularResStepsOf360 := 720 }
      (1 / 2) hr (by norm_num)
    have hq : fl32 ((180 : ℚ) / (1 / 2)) = 360 := by rw [q1, fl32_360]
    have hs : ({ sampleActor true with AngularResStepsOf360 := 720 } : ALidarActor).ScanAngleDeg
        = 180 := rfl
    rw [hs, hq, h360, Option.map_some'] at hb
    refine ⟨_, hb, rfl, rfl, rfl, rfl, ?_, ?_⟩
    · show (1 / 2 : ℚ) * Degree2Radian = Degree2Radian / 2
      ring
    · intro hc
      have h1 : Degree2Radian = 1 / 2 * Degree2Radian := hc.1
      have := Degree2Radian_ne_zero
      apply this
      linarith
  · have hr : fdiv32 180 ((90 : ℕ) : ℚ) = some 2 := by
      rw [fdiv32_eq _ _ (by norm_num)]
      have : (180 : ℚ) / ((90 : ℕ) : ℚ) = 2 := by norm_num
      rw [this, fl32_two]
    have hk : (fdiv64 360 2).bind toUInt16 = some 180 := by
      rw [fdiv64_eq _ _ (by norm_num)]
      have : (360 : ℚ) / 2 = 180 := by norm_num
      rw [this, fl64_180, Option.some_bind, h180]
    have hb := hook_AngularResStepsInside { sampleActor true with AngularResStepsInside := 90 }
      2 180 hr hk
    refine ⟨_, hb, rfl, rfl, rfl, rfl, ?_, ?_⟩
    · show (2 : ℚ) * Degree2Radian = Degree2Radian * 2
      ring
    · intro hc
      have h1 : Degree2Radian = 2 * Degree2Radian := hc.1
      have := Degree2Radian_ne_zero
      apply this
      linarith
  · have hk1 : (fdiv32 180 (1 / 2)).bind toUInt16 = some 360 := by
      rw [fdiv32_eq _ _ (by norm_num), q1, fl32_360, Option.some_bind, h360]
    have hk2 : (fdiv64 360 (1 / 2)).bind toUInt16 = some 720 := by
      rw [fdiv64_eq _ _ (by norm_num), q2, fl64_720, Option.some_bind, h720]
    have hb := hook_AngularResInDeg { sampleActor true with AngularResInDeg := 1 / 2 }
      360 720 hk1 hk2
    have hrad : fl32 (({ sampleActor true with AngularResInDeg := 1 / 2 } :
        ALidarActor).AngularResInDeg * Degree2Radian) = Degree2Radian / 2 := fl32_half_degree
    rw [hrad] at hb
    refine ⟨_, hb, rfl, rfl, rfl, rfl, ?_, ?_, ?_⟩
    · show Degree2Radian / 2 = 1 / 2 * Degree2Radian
      ring
    · show (fdiv 180 (1 / 2)).bind toUInt16 = some 360
      rw [fdiv, if_neg (by norm_num), q1, Option.some_bind, h360]
    · show (fdiv 360 (1 / 2)).bind toUInt16 = some 720
      rw [fdiv, if_neg (by norm_num), q2, Option.some_bind, h720]

/-- C6 (as amended): from a state whose resolution forms agree, the hook after
an edit of the scan angle, in degrees or in radians, recomputes the other unit
(as the `float` product or quotient with `Degree2Radian`, and with it the
field of view of the capture component) and leaves all four forms of the
angular resolution as they were; so afterwards the forms agree with the new
scan angle exactly when the new `ScanAngleDeg / AngularResInDeg` still
truncates to the old `AngularResStepsInside`. -/
theorem C6_scan_angle_setters (a : ALidarActor) (v : ℚ) (ha : a.ResolutionConsistent) :
    (∃ b, ALidarActor.PostEditChangeProperty { a with ScanAngleDeg := v }
          PropertyName.ScanAngleDeg = some b ∧
      b.ScanAngleDeg = v ∧ b.ScanAngleRad = fl32 (v * Degree2Radian) ∧ b.FOVAngle = v ∧
      b.AngularResInDeg = a.AngularResInDeg ∧ b.AngularResInRad = a.AngularResInRad ∧
      b.AngularResStepsInside = a.AngularResStepsInside ∧
      b.AngularResStepsOf360 = a.AngularResStepsOf360 ∧
      (b.ResolutionConsistent ↔
        (fdiv v a.AngularResInDeg).bind toUInt16 = some a.AngularResStepsInside)) ∧
    (∃ b, ALidarActor.PostEditChangeProperty { a with ScanAngleRad := v }
          PropertyName.ScanAngleRad = some b ∧
      b.ScanAngleRad = v ∧ b.ScanAngleDeg = fl32 (v / Degree2Radian) ∧
      b.FOVAngle = fl32 (v / Degree2Radian) ∧
      b.AngularResInDeg = a.AngularResInDeg ∧ b.AngularResInRad = a.AngularResInRad ∧
      b.AngularResStepsInside = a.AngularResStepsInside ∧
      b.AngularResStepsOf360 = a.AngularResStepsOf360 ∧
      (b.ResolutionConsistent ↔
        (fdiv (fl32 (v / Degree2Radian)) a.AngularResInDeg).bind toUInt16 =
          some a.AngularResStepsInside)) :=
  ⟨⟨_, rfl, rfl, rfl, rfl, rfl, rfl, rfl, rfl,
      ⟨fun hb => hb.2.1, fun hq => ⟨ha.1, hq, ha.2.2⟩⟩⟩,
    ⟨_, hook_ScanAngleRad _, rfl, rfl, rfl, rfl, rfl, rfl, rfl,
      ⟨fun hb => hb.2.1, fun hq => ⟨ha.1, hq, ha.2.2⟩⟩⟩⟩

/-- C6 on the sample actor, 180 degrees at 1 degree per step: after the scan
angle is set to 120 degrees the step count inside is still `180`, and the
forms no longer agree. -/
theorem C6_scan_angle_setters_witness :
    (sampleActor true).ResolutionConsistent ∧
      ∃ b, ALidarActor.PostEditChangeProperty { sampleActor true with ScanAngleDeg := 120 }
            PropertyName.ScanAngleDeg = some b ∧
        b.ScanAngleRad = fl32 (120 * Degree2Radian) ∧ b.AngularResStepsInside = 180 ∧
        ¬ b.ResolutionConsistent := by
  obtain ⟨b, hb, -, hrad, -, -, -, hsteps, -, hiff⟩ :=
    (C6_scan_angle_setters (sampleActor true) 120 (sampleActor_consistent true)).1
  refine ⟨sampleActor_consistent true, b, hb, hrad, hsteps, ?_⟩
  rw [hiff]
  show ¬ ((fdiv 120 1).bind toUInt16 = some 180)
  norm_num [fdiv, toUInt16]

/-- C6 (as stated) fails: the sample actor is consistent, with a scan angle of
180 degrees at 1 degree per step and 180 steps inside.  After the scan angle
is set to 90 degrees the hook leaves `AngularResStepsInside` at `180`, while
`ScanAngleDeg / AngularResInDeg` is now `90`. -/
theorem C6_counterexample :
    (sampleActor true).ResolutionConsistent ∧
      ∃ b, ALidarActor.PostEditChangeProperty { sampleActor true with ScanAngleDeg := 90 }
            PropertyName.ScanAngleDeg = some b ∧
        b.ScanAngleDeg = 90 ∧ b.AngularResInDeg = 1 ∧ b.AngularResStepsInside = 180 ∧
        (fdiv b.ScanAngleDeg b.AngularResInDeg).bind toUInt16 = some 90 ∧
        ¬ b.ResolutionConsistent := by
  have h90 : (fdiv 90 1).bind toUInt16 = some 90 := by norm_num [fdiv, toUInt16]
  refine ⟨sampleActor_consistent true, _, rfl, rfl, rfl, rfl, h90, ?_⟩
  intro hc
  have h2 : (fdiv 90 1).bind toUInt16 = some 180 := hc.2.1
  rw [h90] at h2
  exact absurd (Option.some.inj h2) (by norm_num)

theorem fl_ratio_bounds (n : ℕ) (hn : 0 < n) (hn16 : n < 65536) :
    (360 : ℚ) / n * (8388607 / 8388608) ≤ fl32 (fl64 (360 / n)) ∧
      fl32 (fl64 (360 / n)) ≤ (360 : ℚ) / n * (8388609 / 8388608) ∧
      (360 : ℚ) / 65535 ≤ 360 / n := by
  have hq : (0 : ℚ) < n := by exact_mod_cast hn
  have hq16 : (n : ℚ) ≤ 65535 := by
    have : n ≤ 65535 := by omega
    exact_mod_cast this
  have hx : (360 : ℚ) / 65535 ≤ 360 / n :=
    div_le_div_of_nonneg_left (by norm_num) hq hq16
  have hx0 : (0 : ℚ) ≤ 360 / n := by positivity
  have hy1 := fl64_ge_of_nonneg _ hx0
  have hy2 := fl64_le_of_nonneg _ hx0
  have e1 : (1 : ℚ) / 2 ^ 1075 ≤ 1 / 2 ^ 150 := by
    apply one_div_le_one_div_of_le (by positivity)
    exact pow_le_pow_right₀ (by norm_num) (by norm_num)
  have e2 : (1 : ℚ) / 2 ^ 150 ≤ 1 / 2 ^ 60 := by
    apply one_div_le_one_div_of_le (by positivity)
    exact pow_le_pow_right₀ (by norm_num) (by norm_num)
  have hy0 : (0 : ℚ) ≤ fl64 (360 / n) := roundBinary_nonneg _ _ _ hx0
  have hr1 := fl32_ge_of_nonneg _ hy0
  have hr2 := fl32_le_of_nonneg _ hy0
  have c53 : ((2 : ℚ) ^ 53) = 9007199254740992 := by norm_num
  have c24 : ((2 : ℚ) ^ 24) = 16777216 := by norm_num
  have c60 : ((2 : ℚ) ^ 60) = 1152921504606846976 := by norm_num
  rw [c53] at hy1 hy2
  rw [c24] at hr1 hr2
  rw [c60] at e2
  refine ⟨?_, ?_, hx⟩ <;> linarith

/-- C8 (as amended): after the editor has set `AngularResStepsOf360` to a
positive `uint16` count `n`, the hook leaves in `AngularResInDeg` the `float`
nearest to the `double` quotient `360 / n`, which is positive and within
`2^-23` of `360 / n` relatively; and for every scan angle it leaves in the
integer field `AngularResStepsInside` the whole part of the `float` quotient
of the scan angle by that resolution, whenever this fits the field, as it does
for every scan angle from 0 to 360 degrees. -/
theorem C8_steps_of_360 (a : ALidarActor) (n : Nat) (hn : 0 < n) (hn16 : n < 65536) :
    0 < fl32 (fl64 (360 / n)) ∧
      |fl32 (fl64 (360 / n)) - 360 / n| ≤ 360 / n / 2 ^ 23 ∧
      ALidarActor.PostEditChangeProperty { a with AngularResStepsOf360 := n }
          PropertyName.AngularResStepsOf360 =
        ((toUInt16 (fl32 (a.ScanAngleDeg / fl32 (fl64 (360 / n))))).map fun k =>
          { a with
            AngularResStepsOf360 := n
            AngularResInDeg := fl32 (fl64 (360 / n))
            AngularResStepsInside := k }) ∧
      (0 ≤ a.ScanAngleDeg → a.ScanAngleDeg ≤ 360 →
        ∃ b, ALidarActor.PostEditChangeProperty { a with AngularResStepsOf360 := n }
              PropertyName.AngularResStepsOf360 = some b ∧
          b.AngularResInDeg = fl32 (fl64 (360 / n)) ∧
          b.AngularResStepsInside = ⌊fl32 (a.ScanAngleDeg / fl32 (fl64 (360 / n)))⌋₊ ∧
          b.AngularResStepsOf360 = n ∧ b.ScanAngleDeg = a.ScanAngleDeg) := by
  obtain ⟨hlo, hhi, hx⟩ := fl_ratio_bounds n hn hn16
  have hq : (0 : ℚ) < n := by exact_mod_cast hn
  have hx0 : (0 : ℚ) < 360 / n := by positivity
  have hpos : 0 < fl32 (fl64 (360 / n)) := by linarith
  have hr : (fdiv64 360 (({ a with AngularResStepsOf360 := n } : ALidarActor).AngularResStepsOf360 : ℚ)).map
      fl32 = some (fl32 (fl64 (360 / n))) := by
    show (fdiv64 360 (n : ℚ)).map fl32 = some (fl32 (fl64 (360 / n)))
    rw [fdiv64_eq _ _ hq.ne', Option.map_some']
  have hb := hook_AngularResStepsOf360 { a with AngularResStepsOf360 := n } _ hr hpos.ne'
  refine ⟨hpos, ?_, hb, ?_⟩
  · rw [abs_le]
    have c23 : ((2 : ℚ) ^ 23) = 8388608 := by norm_num
    rw [c23]
    constructor <;> linarith
  · intro h0 h360
    have hz0 : 0 ≤ a.ScanAngleDeg / fl32 (fl64 (360 / n)) := div_nonneg h0 hpos.le
    have hz : a.ScanAngleDeg / fl32 (fl64 (360 / n)) ≤ 65535 * (8388608 / 8388607) := by
      rw [div_le_iff₀ hpos]
      linarith
    have hq0 := fl32_nonneg _ hz0
    have hq1 := fl32_le_of_nonneg _ hz0
    have c24 : ((2 : ℚ) ^ 24) = 16777216 := by norm_num
    have e2 : (1 : ℚ) / 2 ^ 150 ≤ 1 / 2 ^ 10 := by
      apply one_div_le_one_div_of_le (by positivity)
      exact pow_le_pow_right₀ (by norm_num) (by norm_num)
    have c10 : ((2 : ℚ) ^ 10) = 1024 := by norm_num
    rw [c24] at hq1
    rw [c10] at e2
    have hlt : fl32 (a.ScanAngleDeg / fl32 (fl64 (360 / n))) < 65536 := by linarith
    have hgt : (-1 : ℚ) < fl32 (a.ScanAngleDeg / fl32 (fl64 (360 / n))) := by linarith
    have hs : ({ a with AngularResStepsOf360 := n } : ALidarActor).ScanAngleDeg = a.ScanAngleDeg :=
      rfl
    rw [hs, toUInt16_eq _ hgt hlt, Option.map_some'] at hb
    exact ⟨_, hb, rfl, rfl, rfl, rfl⟩

/-- C8 at `n = 720` with a scan angle of 180 degrees: the resolution becomes
`1/2` degree and the steps inside the scan angle `360`; at `n = 360` they
become `1` degree and `180`. -/
theorem C8_steps_of_360_witness :
    (0 : Nat) < 720 ∧ (sampleActor true).ScanAngleDeg = 180 ∧
      (∃ b, ALidarActor.PostEditChangeProperty { sampleActor true with AngularResStepsOf360 := 720 }
            PropertyName.AngularResStepsOf360 = some b ∧
        b.AngularResInDeg = 1 / 2 ∧ b.AngularResStepsInside = 360) ∧
      ∃ b, ALidarActor.PostEditChangeProperty { sampleActor true with AngularResStepsOf360 := 360 }
            PropertyName.AngularResStepsOf360 = some b ∧
        b.AngularResInDeg = 1 ∧ b.AngularResStepsInside = 180 := by
  have hs : (sampleActor true).ScanAngleDeg = 180 := rfl
  have hr : fl32 (fl64 (360 / ((720 : ℕ) : ℚ))) = 1 / 2 := by
    have : (360 : ℚ) / ((720 : ℕ) : ℚ) = 1 / 2 := by norm_num
    rw [this, fl64_half, fl32_half]
  have hr1 : fl32 (fl64 (360 / ((360 : ℕ) : ℚ))) = 1 := by
    have : (360 : ℚ) / ((360 : ℕ) : ℚ) = 1 := by norm_num
    rw [this, fl64_one, fl32_one]
  obtain ⟨b, hb, hdeg, hsteps, -, -⟩ :=
    (C8_steps_of_360 (sampleActor true) 720 (by norm_num) (by norm_num)).2.2.2
      (by rw [hs]; norm_num) (by rw [hs]; norm_num)
  obtain ⟨c, hc, hdeg1, hsteps1, -, -⟩ :=
    (C8_steps_of_360 (sampleActor true) 360 (by norm_num) (by norm_num)).2.2.2
      (by rw [hs]; norm_num) (by rw [hs]; norm_num)
  refine ⟨by norm_num, hs, ⟨b, hb, ?_, ?_⟩, c, hc, ?_, ?_⟩
  · rw [hdeg, hr]
  · rw [hsteps, hr, hs]
    have : (180 : ℚ) / (1 / 2) = 360 := by norm_num
    rw [this, fl32_360]
    norm_num
  · rw [hdeg1, hr1]
  · rw [hsteps1, hr1, hs, div_one, fl32_180]
    norm_num

/-- C8 (as stated) fails: with a scan angle of 72 degrees and `n = 75` the
exact `72 / (360 / 75)` is `15`, but the hook stores the `float`
`4.8000002` (`5033165 / 2^20`), not `360 / 75`, as resolution, the `float`
quotient of 72 by it is `14.999999`, and `AngularResStepsInside` becomes
`14`. -/
theorem C8_counterexample :
    (72 : ℚ) / (360 / 75) = 15 ∧
      ∃ b, ALidarActor.PostEditChangeProperty
            { sampleActor true with ScanAngleDeg := 72, AngularResStepsOf360 := 75 }
            PropertyName.AngularResStepsOf360 = some b ∧
        b.ScanAngleDeg = 72 ∧ b.AngularResStepsOf360 = 75 ∧
        b.AngularResInDeg = 5033165 / 1048576 ∧ b.AngularResInDeg ≠ 360 / 75 ∧
        b.AngularResStepsInside = 14 := by
  refine ⟨by norm_num, ?_⟩
  have hr : (fdiv64 360 ((75 : ℕ) : ℚ)).map fl32 = some (5033165 / 1048576) := by
    rw [fdiv64_eq _ _ (by norm_num)]
    have : (360 : ℚ) / ((75 : ℕ) : ℚ) = 360 / 75 := by norm_num
    rw [this, Option.map_some', fl64_ratio_75, fl32_ratio_75]
  have hb := hook_AngularResStepsOf360
    { sampleActor true with ScanAngleDeg := 72, AngularResStepsOf360 := 75 }
    (5033165 / 1048576) hr (by norm_num)
  have hs : ({ sampleActor true with ScanAngleDeg := 72, AngularResStepsOf360 := 75 } :
      ALidarActor).ScanAngleDeg = 72 := rfl
  have hfloor : ⌊(15728639 / 1048576 : ℚ)⌋₊ = 14 := by
    rw [Nat.floor_eq_iff (by norm_num)]
    constructor <;> norm_num
  rw [hs, fl32_72_by_75, toUInt16_eq _ (by norm_num) (by norm_num), Option.map_some', hfloor] at hb
  exact ⟨_, hb, rfl, rfl, rfl, by norm_num, rfl⟩

/-- C9: for every degrees value `d` from 0 to 360, the hook after setting
`ScanAngleDeg` to `d` yields as `ScanAngleRad` the `float` product of `d` and
`Degree2Radian`, within half a unit in the last place of `d * Degree2Radian`;
and the hook after setting `ScanAngleRad` to that value, in whatever state,
yields a `ScanAngleDeg` within `d / 2^22 + 2^-140` of `d`, so within `0.0001`
degrees.  In exact arithmetic the round trip `d * Degree2Radian / Degree2Radian`
is `d` itself. -/
theorem C9_degree_radian_roundtrip (a : ALidarActor) (d : ℚ) (h0 : 0 ≤ d) (h360 : d ≤ 360) :
    (∃ b, ALidarActor.PostEditChangeProperty { a with ScanAngleDeg := d }
          PropertyName.ScanAngleDeg = some b ∧
      b.ScanAngleDeg = d ∧ b.ScanAngleRad = fl32 (d * Degree2Radian) ∧
      |b.ScanAngleRad - d * Degree2Radian| ≤ d * Degree2Radian / 2 ^ 24 + 1 / 2 ^ 150 ∧
      ∀ a2 : ALidarActor,
        ∃ c, ALidarActor.PostEditChangeProperty { a2 with ScanAngleRad := b.ScanAngleRad }
            PropertyName.ScanAngleRad = some c ∧
          c.ScanAngleRad = b.ScanAngleRad ∧
          c.ScanAngleDeg = fl32 (fl32 (d * Degree2Radian) / Degree2Radian) ∧
          |c.ScanAngleDeg - d| ≤ d / 2 ^ 22 + 1 / 2 ^ 140 ∧
          |c.ScanAngleDeg - d| ≤ 1 / 10000) ∧
      d * Degree2Radian / Degree2Radian = d := by
  have hk : (0 : ℚ) < Degree2Radian := by norm_num [Degree2Radian]
  have hx0 : 0 ≤ d * Degree2Radian := mul_nonneg h0 hk.le
  have hr0 : 0 ≤ fl32 (d * Degree2Radian) := fl32_nonneg _ hx0
  have hr1 := fl32_ge_of_nonneg _ hx0
  have hr2 := fl32_le_of_nonneg _ hx0
  have hy0 : 0 ≤ fl32 (d * Degree2Radian) / Degree2Radian := div_nonneg hr0 hk.le
  have hd1 := fl32_ge_of_nonneg _ hy0
  have hd2 := fl32_le_of_nonneg _ hy0
  have hdiv : fl32 (d * Degree2Radian) / Degree2Radian =
      fl32 (d * Degree2Radian) * (134217728 / 2342541) := by
    rw [div_eq_mul_inv]
    congr 1
    norm_num [Degree2Radian]
  have hdk : d * Degree2Radian = d * (2342541 / 134217728) := by rw [Degree2Radian]
  have bounds : |fl32 (fl32 (d * Degree2Radian) / Degree2Radian) - d| ≤ d / 2 ^ 22 + 1 / 2 ^ 140 := by
    generalize fl32 (fl32 (d * Degree2Radian) / Degree2Radian) = D at hd1 hd2 ⊢
    rw [hdiv] at hd1 hd2
    generalize fl32 (d * Degree2Radian) = R at hr1 hr2 hd1 hd2
    rw [hdk] at hr1 hr2
    have c24 : ((2 : ℚ) ^ 24) = 16777216 := by norm_num
    have c22 : ((2 : ℚ) ^ 22) = 4194304 := by norm_num
    have e1 : (1 : ℚ) / 2 ^ 150 * 1024 = 1 / 2 ^ 140 := by norm_num
    have e0 : (0 : ℚ) < 1 / 2 ^ 150 := by positivity
    rw [c24] at hr1 hr2 hd1 hd2
    rw [c22, ← e1, abs_le]
    generalize (1 : ℚ) / 2 ^ 150 = ε at hr1 hr2 hd1 hd2 e0 ⊢
    constructor <;> linarith
  refine ⟨⟨_, rfl, rfl, rfl, ?_, ?_⟩, mul_div_cancel_right₀ d hk.ne'⟩
  · show |fl32 (d * Degree2Radian) - d * Degree2Radian| ≤ d * Degree2Radian / 2 ^ 24 + 1 / 2 ^ 150
    rw [abs_le]
    constructor <;> linarith
  · intro a2
    refine ⟨_, hook_ScanAngleRad _, rfl, rfl, bounds, bounds.trans ?_⟩
    have c22 : ((2 : ℚ) ^ 22) = 4194304 := by norm_num
    have e2 : (1 : ℚ) / 2 ^ 140 ≤ 1 / 2 ^ 20 := by
      apply one_div_le_one_div_of_le (by positivity)
      exact pow_le_pow_right₀ (by norm_num) (by norm_num)
    have c20 : ((2 : ℚ) ^ 20) = 1048576 := by norm_num
    rw [c20] at e2
    rw [c22]
    linarith

/-- C9 at 31 degrees: the radians are the `float` `0.541052`
(`4538673 / 2^23`), and the degrees computed back from them are the `float`
`30.999998` (`16252927 / 2^19`), less than `0.0001` from `31`. -/
theorem C9_degree_radian_roundtrip_witness :
    (0 : ℚ) ≤ 31 ∧ (31 : ℚ) ≤ 360 ∧
      ∃ b c, ALidarActor.PostEditChangeProperty { sampleActor true with ScanAngleDeg := 31 }
            PropertyName.ScanAngleDeg = some b ∧
        b.ScanAngleRad = 4538673 / 8388608 ∧
        ALidarActor.PostEditChangeProperty { b with ScanAngleRad := b.ScanAngleRad }
            PropertyName.ScanAngleRad = some c ∧
        c.ScanAngleDeg = 16252927 / 524288 ∧ |c.ScanAngleDeg - 31| ≤ 1 / 10000 := by
  obtain ⟨⟨b, hb, -, hrad, -, hback⟩, -⟩ :=
    C9_degree_radian_roundtrip (sampleActor true) 31 (by norm_num) (by norm_num)
  obtain ⟨c, hc, -, hdeg, -, htol⟩ := hback b
  refine ⟨by norm_num, by norm_num, b, c, hb, ?_, hc, ?_, htol⟩
  · rw [hrad, fl32_31_deg]
  · rw [hdeg, fl32_31_deg, fl32_31_back]

/-! ## Message construction -/

theorem hook_handles (a b : ALidarActor) (Name : PropertyName)
    (h : a.PostEditChangeProperty Name = some b) :
    b.ScanData = a.ScanData ∧ b.Handler = a.Handler := by
  cases Name <;>
    simp only [ALidarActor.PostEditChangeProperty, Option.bind_eq_bind, Option.bind_eq_some,
      Option.some.injEq, bind, exists_and_left] at h
  all_goals first
    | (subst h; exact ⟨rfl, rfl⟩)
    | (obtain ⟨_, _, rfl⟩ := h; exact ⟨rfl, rfl⟩)
    | (obtain ⟨_, _, _, _, rfl⟩ := h; exact ⟨rfl, rfl⟩)
    | (obtain ⟨_, _, _, _, _, _, rfl⟩ := h; exact ⟨rfl, rfl⟩)

theorem Framed_BeginPlay (p : ScanSpecs) (ConnectOk : Bool) :
    ((ALidarActor.new p).BeginPlay ConnectOk).Framed p := by
  refine ⟨⟨_, rfl, rfl, rfl, rfl, rfl, rfl⟩, ⟨_, rfl⟩, ?_⟩
  simp [ALidarActor.Published, ALidarActor.BeginPlay, publishedOf]

theorem Framed_step (p : ScanSpecs) (a b : ALidarActor) (e : Event)
    (ha : a.Framed p) (h : a.step e = some b) : b.Framed p := by
  obtain ⟨⟨m, hm, hf⟩, ⟨hd, hh⟩, hall⟩ := ha
  cases e with
  | Frame i =>
    by_cases hlt : fl32 (a.TimePassed + i.DeltaTime) < a.TimePerScan
    · have hb : some b = some _ := h.symm.trans (Tick_idle a i hlt)
      cases hb
      exact ⟨⟨m, hm, hf⟩, ⟨hd, hh⟩, hall⟩
    · obtain ⟨c, hc, hpub, -, -, hscan, h2, hh2, -⟩ :=
        Published_fire a i m hd hm hh (not_lt.mp hlt)
      have hbc : some b = some c := h.symm.trans hc
      cases hbc
      have hpack : (a.pack m i).FramedBy p := hf
      refine ⟨⟨_, hscan, hpack⟩, ⟨h2, hh2⟩, ?_⟩
      intro x hx
      rw [hpub, List.mem_append, List.mem_singleton] at hx
      rcases hx with hx | hx
      · exact hall x hx
      · rw [hx]; exact hpack
  | Edit q Name =>
    obtain ⟨hs, hH⟩ := hook_handles _ _ Name h
    have hpub : b.Published = a.Published := by
      unfold ALidarActor.Published
      rw [hH]; rfl
    refine ⟨⟨m, hs.trans hm, hf⟩, ⟨hd, hH.trans hh⟩, ?_⟩
    rw [hpub]; exact hall

theorem Framed_run (p : ScanSpecs) (events : List Event) :
    ∀ a b : ALidarActor, a.Framed p → a.run events = some b → b.Framed p := by
  induction events with
  | nil =>
    intro a b ha h
    have : some a = some b := h
    cases this
    exact ha
  | cons e rest ih =>
    intro a b ha h
    cases hs : a.step e with
    | none => simp [ALidarActor.run, hs] at h
    | some c =>
      simp only [ALidarActor.run, hs] at h
      exact ih c b (Framed_step p a c e ha hs) h

theorem sample_edit_run :
    ∃ b msg, (sampleActor true).run
        [Event.Edit { sampleSpecs with ScanAngleDeg := 90 } PropertyName.ScanAngleDeg,
          Event.Frame (sampleFrame (1 / 10) [50, 250, 9999])] = some b ∧
      b.ScanAngleRad = fl32 (90 * Degree2Radian) ∧ b.Published = [msg] ∧
      msg.angle_max = fl32 (180 * Degree2Radian) / 2 ∧
      msg.angle_min = -(fl32 (180 * Degree2Radian) / 2) ∧
      msg.angle_increment = Degree2Radian ∧ msg.range_min = 1 ∧ msg.range_max = 50 := by
  obtain ⟨a, ha, hrad, hscan, hhandler, hpassed, hperiod⟩ :
      ∃ a, (sampleActor true).step
          (Event.Edit { sampleSpecs with ScanAngleDeg := 90 } PropertyName.ScanAngleDeg) = some a ∧
        a.ScanAngleRad = fl32 (90 * Degree2Radian) ∧ a.ScanData = (sampleActor true).ScanData ∧
        a.Handler = (sampleActor true).Handler ∧ a.TimePassed = 0 ∧
        a.TimePerScan = fl32 (1 / 10) :=
    ⟨_, rfl, rfl, rfl, rfl, rfl, rfl⟩
  have hfire : a.TimePerScan ≤
      fl32 (a.TimePassed + (sampleFrame (1 / 10) [50, 250, 9999]).DeltaTime) := by
    rw [hpassed, hperiod]
    exact sampleActor_fires true [50, 250, 9999]
  obtain ⟨b, hb, hpub, -, -, -, -, -, -⟩ := Published_fire a (sampleFrame (1 / 10) [50, 250, 9999])
    _ _ hscan hhandler hfire
  have hrad2 : b.ScanAngleRad = a.ScanAngleRad := by
    have h := Tick_fire a (sampleFrame (1 / 10) [50, 250, 9999]) _ _ hscan hhandler hfire
    have hsome : some b = some _ := hb.symm.trans h
    cases hsome
    rfl
  have h0 : a.Published = [] := by
    unfold ALidarActor.Published
    rw [hhandler]
    simp [sampleActor, ALidarActor.BeginPlay, publishedOf]
  refine ⟨b, _, ?_, hrad2.trans hrad, by rw [hpub, h0]; rfl, rfl, ?_, rfl, rfl, rfl⟩
  · have hb2 : a.step (Event.Frame (sampleFrame (1 / 10) [50, 250, 9999])) = some b := hb
    simp only [ALidarActor.run, ha, hb2]
  · show -1 * fl32 (180 * Degree2Radian) / 2 = -(fl32 (180 * Degree2Radian) / 2)
    ring

/-- C7 (as amended): in an actor put into play with the scanning specs `p`,
after any sequence of frames and property edits every message handed to
`PublishMsg` has `angle_min = -ScanAngleRad / 2`, `angle_max = ScanAngleRad / 2`,
`angle_increment = AngularResInRad`, `range_min = MinimumDistance` and
`range_max = MaximumDistance` with the values `p` had at `BeginPlay`, whatever
the specs are by then; and a firing `Tick` publishes exactly one message,
whose ranges are the array built in that call and whose angle and range
fields are those of the message object. -/
theorem C7_message_construction (p : ScanSpecs) (ConnectOk : Bool) (events : List Event)
    (b : ALidarActor) (hrun : ((ALidarActor.new p).BeginPlay ConnectOk).run events = some b) :
    (∀ m ∈ b.Published,
        m.angle_min = -1 * p.ScanAngleRad / 2 ∧ m.angle_max = p.ScanAngleRad / 2 ∧
        m.angle_min = -m.angle_max ∧ m.angle_increment = p.AngularResInRad ∧
        m.range_min = p.MinimumDistance ∧ m.range_max = p.MaximumDistance) ∧
      (∀ (i : TickInput), b.TimePerScan ≤ fl32 (b.TimePassed + i.DeltaTime) →
        ∃ c m msg, b.ScanData = some m ∧ b.Tick i = some c ∧
          c.Published = b.Published ++ [msg] ∧
          msg.ranges = b.ProcessedDepthImage i ∧
          msg.angle_min = m.angle_min ∧ msg.angle_max = m.angle_max ∧
          msg.angle_increment = m.angle_increment ∧
          msg.range_min = m.range_min ∧ msg.range_max = m.range_max) := by
  obtain ⟨⟨m, hm, -⟩, ⟨h, hh⟩, hall⟩ :=
    Framed_run p events _ b (Framed_BeginPlay p ConnectOk) hrun
  constructor
  · intro x hx
    obtain ⟨h1, h2, h3, h4, h5⟩ := hall x hx
    refine ⟨h1, h2, ?_, h3, h4, h5⟩
    rw [h1, h2]; ring
  · intro i hfire
    obtain ⟨c, hc, hpub, -⟩ := Published_fire b i m h hm hh hfire
    exact ⟨c, m, b.pack m i, hm, hc, hpub, rfl, rfl, rfl, rfl, rfl, rfl⟩

/-- C7 on the sample actor, whose scan angle is edited from 180 to 90 degrees
before a frame fires: the one message still spans the 180 degrees and keeps
the maximum range of 50. -/
theorem C7_message_construction_witness :
    ∃ b msg, (sampleActor true).run
        [Event.Edit { sampleSpecs with ScanAngleDeg := 90 } PropertyName.ScanAngleDeg,
          Event.Frame (sampleFrame (1 / 10) [50, 250, 9999])] = some b ∧
      b.Published = [msg] ∧
      msg.angle_max = fl32 (180 * Degree2Radian) / 2 ∧ msg.angle_increment = Degree2Radian ∧
      msg.range_min = 1 ∧ msg.range_max = 50 := by
  obtain ⟨b, msg, hb, -, hpub, -⟩ := sample_edit_run
  have h := (C7_message_construction sampleSpecs true _ b hb).1 msg (by rw [hpub]; simp)
  exact ⟨b, msg, hb, hpub, h.2.1, h.2.2.2.1, h.2.2.2.2.1, h.2.2.2.2.2⟩

/-- C7 (as stated) fails: the sample actor goes into play with a scan angle of
180 degrees, in radians the `float` `180 * Degree2Radian`; the scan angle is
then set to 90 degrees, so that `ScanAngleRad` is the `float`
`90 * Degree2Radian` when the next frame fires, and the message published by
that frame has as `angle_max` half the scan angle of 180 degrees and as
`angle_min` its negative, not half the scan angle then in force. -/
theorem C7_counterexample :
    ∃ b msg, (sampleActor true).run
        [Event.Edit { sampleSpecs with ScanAngleDeg := 90 } PropertyName.ScanAngleDeg,
          Event.Frame (sampleFrame (1 / 10) [50, 250, 9999])] = some b ∧
      b.ScanAngleRad = fl32 (90 * Degree2Radian) ∧ b.Published = [msg] ∧
      msg.angle_max = fl32 (180 * Degree2Radian) / 2 ∧ msg.angle_max ≠ b.ScanAngleRad / 2 ∧
      msg.angle_min = -(fl32 (180 * Degree2Radian) / 2) ∧ msg.angle_min ≠ -b.ScanAngleRad / 2 := by
  obtain ⟨b, msg, hb, hrad, hpub, hmax, hmin, -⟩ := sample_edit_run
  refine ⟨b, msg, hb, hrad, hpub, hmax, ?_, hmin, ?_⟩
  · rw [hmax, hrad, fl32_180_deg, fl32_90_deg]; norm_num
  · rw [hmin, hrad, fl32_180_deg, fl32_90_deg]; norm_num

/-! ## Publishing -/

/-- C10 (as amended): a firing `Tick` does not look at the connection state.
Whenever the handles are set, whether the handler is connected or not, the
call returns normally, hands the packed message to `PublishMsg` under
`ROSTopic` and then calls `Process`; the connection state is left as it was,
and the calls made are the same for both connection states. -/
theorem C10_publish_unguarded (a : ALidarActor) (i : TickInput) (m : LaserScan)
    (h : FROSBridgeHandler) (hm : a.ScanData = some m) (hh : a.Handler = some h)
    (hfire : a.TimePerScan ≤ fl32 (a.TimePassed + i.DeltaTime)) :
    ∃ b h2, a.Tick i = some b ∧ b.Handler = some h2 ∧
      h2.Calls = h.Calls ++ [HandlerCall.PublishMsg a.ROSTopic (a.pack m i), HandlerCall.Process] ∧
      h2.Connected = h.Connected ∧
      b.Published = a.Published ++ [a.pack m i] ∧
      ∀ Connected : Bool, ∃ b3 h3,
        ALidarActor.Tick { a with Handler := some { h with Connected := Connected } } i = some b3 ∧
        b3.Handler = some h3 ∧ h3.Calls = h2.Calls ∧ h3.Connected = Connected := by
  obtain ⟨b, hb, hpub, -⟩ := Published_fire a i m h hm hh hfire
  have hb2 := Tick_fire a i m h hm hh hfire
  refine ⟨_, _, hb2, rfl, rfl, rfl, ?_, ?_⟩
  · have : some b = some _ := hb.symm.trans hb2
    cases this
    exact hpub
  · intro c
    exact ⟨_, _, Tick_fire { a with Handler := some { h with Connected := c } } i m
      { h with Connected := c } hm rfl hfire, rfl, rfl, rfl⟩

/-- C10 on the sample actor whose connection failed: the frame that fires
still hands its message to `PublishMsg`. -/
theorem C10_publish_unguarded_witness :
    ∃ b h2, (sampleActor false).Tick (sampleFrame (1 / 10) [50, 250, 9999]) = some b ∧
      b.Handler = some h2 ∧ h2.Connected = false ∧ h2.Calls.length = 4 ∧
      b.Published.length = 1 := by
  obtain ⟨b, h2, hb, hh2, hcalls, hconn, hpub, -⟩ :=
    C10_publish_unguarded (sampleActor false) (sampleFrame (1 / 10) [50, 250, 9999]) _ _ rfl rfl
      (sampleActor_fires false [50, 250, 9999])
  refine ⟨b, h2, hb, hh2, hconn, ?_, ?_⟩
  · rw [hcalls]; rfl
  · rw [hpub]
    simp [ALidarActor.Published, sampleActor, ALidarActor.BeginPlay, publishedOf]

/-- C10 (as stated) fails: on the sample actor whose `Connect` failed, so that
the handler is not connected, the frame that fires returns normally, with no
error, and has handed one message to `PublishMsg` under the topic
`UE4LaserScan`, followed by `Process`. -/
theorem C10_counterexample :
    ∃ h b h2 msg, (sampleActor false).Handler = some h ∧ h.Connected = false ∧
      (sampleActor false).Tick (sampleFrame (1 / 10) [50, 250, 9999]) = some b ∧
      b.Handler = some h2 ∧ h2.Connected = false ∧
      h2.Calls = [HandlerCall.AddPublisher "UE4LaserScan" "sensor_msgs/LaserScan", HandlerCall.Connect,
        HandlerCall.PublishMsg "UE4LaserScan" msg, HandlerCall.Process] ∧
      b.Published = [msg] ∧ msg.header.seq = 1 := by
  have hfire := sampleActor_fires false [50, 250, 9999]
  refine ⟨_, _, _, _, rfl, rfl, Tick_fire (sampleActor false) _ _ _ rfl rfl hfire, rfl, rfl, rfl, ?_, ?_⟩
  · simp [ALidarActor.Published, sampleActor, ALidarActor.BeginPlay, publishedOf]
  · rfl

end LiDAR
